import Mathlib

/-!
Verification development for the Texas data-center scraping pipeline
(`scripts/01_texas_datacenter_scraper.py`, `scripts/02_rescrape_bad_urls.py`).

The Python code is shallowly embedded: the heterogeneous per-facility dict
becomes the structure `FacilityData`, the parsed JSON payload of the
`__NEXT_DATA__` script tag becomes the inductive `JVal`, Python floats are
modelled as `Rat` (the float values arising here are short decimal literals,
which are exact), and Python exceptions are modelled with `Except` over the
inductive `PyErr`.  String handling is done at the `List Char` level, and
`str.lower` / `str.upper` are modelled on the ASCII range (the phrases and
numerals being matched are all ASCII).  The specific regular expressions used
by the scraper are compiled by hand into deterministic scanners: each pattern
used in the source has disjoint branch points (the greedy subpattern and its
continuation can never both match the same character), so a scanner that tries
each start position from the left and consumes greedily has exactly the
semantics of `re.search` on these patterns.
-/

/-! ## Character and string utilities (ASCII models of Python `str` methods) -/

/-- ASCII decimal digit, the characters matched by `\d` in the source's
regular expressions. -/
def isDig (c : Char) : Bool := '0' ≤ c && c ≤ '9'

/-- The characters matched by `\s` (Python whitespace class, ASCII part). -/
def isWs (c : Char) : Bool :=
  c == ' ' || c == '\t' || c == '\n' || c == '\r' || c == '\x0b' || c == '\x0c'

/-- ASCII lower-casing of one character, as done by Python `str.lower` on the
ASCII range. -/
def lowerChar (c : Char) : Char :=
  if 'A' ≤ c && c ≤ 'Z' then Char.ofNat (c.toNat + 32) else c

/-- ASCII upper-casing of one character, as done by Python `str.upper` on the
ASCII range. -/
def upperChar (c : Char) : Char :=
  if 'a' ≤ c && c ≤ 'z' then Char.ofNat (c.toNat - 32) else c

/-- `str.lower` (ASCII model). -/
def lowerStr (s : String) : String := String.mk (s.data.map lowerChar)

/-- `str.upper` (ASCII model). -/
def upperStr (s : String) : String := String.mk (s.data.map upperChar)

/-- Boolean list-prefix test (used for literal pieces of regex patterns). -/
def chPre : List Char → List Char → Bool
  | [], _ => true
  | _ :: _, [] => false
  | a :: as, b :: bs => a == b && chPre as bs

/-- Boolean substring test: Python's `pat in s` on strings. -/
def chSub (p : List Char) : List Char → Bool
  | [] => chPre p []
  | c :: t => chPre p (c :: t) || chSub p t

/-- Case-insensitive prefix test (the pattern is given in lower case); models
a literal piece of a regex compiled with `re.IGNORECASE`. -/
def ciPre : List Char → List Char → Bool
  | [], _ => true
  | _ :: _, [] => false
  | p :: ps, c :: cs => lowerChar c == p && ciPre ps cs

/-- Python `str.split(';')`. -/
def splitSemi : List Char → List (List Char)
  | [] => [[]]
  | c :: t =>
      if c = ';' then [] :: splitSemi t
      else
        match splitSemi t with
        | h :: r => (c :: h) :: r
        | [] => [[c]]

/-- Python `str.strip()` (whitespace from both ends). -/
def trimChars (l : List Char) : List Char :=
  ((l.dropWhile isWs).reverse.dropWhile isWs).reverse

/-- Value of a list of decimal digits. -/
def digitsToNat (ds : List Char) : Nat :=
  ds.foldl (fun a c => a * 10 + (c.toNat - 48)) 0

/-- Value of a decimal literal with integer part `w` and fraction part `f`. -/
def decOfParts (w f : List Char) : Rat :=
  (digitsToNat w : Rat) + (digitsToNat f : Rat) / ((10 : Rat) ^ f.length)

/-- Unsigned decimal literal accepted by Python `float`: `digits`,
`digits.digits`, `digits.` or `.digits`. -/
def parseUnsignedDec (l : List Char) : Option Rat :=
  let w := l.takeWhile isDig
  match l.dropWhile isDig with
  | [] => if w.isEmpty then none else some (digitsToNat w : Rat)
  | '.' :: f =>
      if f.all isDig && !(w.isEmpty && f.isEmpty) then some (decOfParts w f)
      else none
  | _ => none

/-- Python `float(s)` on a plain decimal string: strips whitespace, optional
sign, then a decimal literal; `none` models the `ValueError` raised on
anything else.  (Exponents and the named special values are outside the
inputs this program feeds to `float`.) -/
def pyFloatOfString (s : String) : Option Rat :=
  match trimChars s.data with
  | '+' :: t => parseUnsignedDec t
  | '-' :: t => (parseUnsignedDec t).map (fun q => -q)
  | t => parseUnsignedDec t

/-- Digits-only body of a Python `int(s)` literal. -/
def parseIntDigits (l : List Char) : Option Nat :=
  if !l.isEmpty && l.all isDig then some (digitsToNat l) else none

/-- Python `int(s)`: strips whitespace, optional sign, digits only; `none`
models the `ValueError` on anything else. -/
def pyIntOfString (s : String) : Option Int :=
  match trimChars s.data with
  | '+' :: t => (parseIntDigits t).map (fun n => (n : Int))
  | '-' :: t => (parseIntDigits t).map (fun n => -(n : Int))
  | t => (parseIntDigits t).map (fun n => (n : Int))

/-! ## JSON values and Python value semantics

The `__NEXT_DATA__` script tag carries a serialized JSON object tree; `JVal`
is its parsed form.  `json.loads` itself (an external collaborator) is not
re-implemented: a document carries either no payload, a malformed payload
(`json.loads` raises `JSONDecodeError`), or a parsed `JVal`. -/

inductive JVal where
  | null : JVal
  | bool : Bool → JVal
  | num : Rat → JVal
  | str : String → JVal
  | arr : List JVal → JVal
  | obj : List (String × JVal) → JVal

/-- The Python exception classes this program can raise or catch. -/
inductive PyErr where
  | valueError
  | typeError
  | attributeError
  | keyError
  | jsonDecodeError
deriving DecidableEq, Repr

/-- Python truthiness of a JSON value. -/
def jtruthy : JVal → Bool
  | .null => false
  | .bool b => b
  | .num q => decide (q ≠ 0)
  | .str s => decide (s ≠ "")
  | .arr xs => !xs.isEmpty
  | .obj kvs => !kvs.isEmpty

/-- Dict lookup (`d[k]` after a `k in d` check, or `d.get(k)`). -/
def jlookup : List (String × JVal) → String → Option JVal
  | [], _ => none
  | (k, v) :: t, key => if k = key then some v else jlookup t key

/-- Python `str()` of a JSON value (exact on strings, which is the only case
the scraped pages exercise; numbers print as decimal). -/
def pyStr : JVal → String
  | .str s => s
  | .num q => if q.den = 1 then toString q.num else toString q
  | .bool true => "True"
  | .bool false => "False"
  | .null => "None"
  | .arr _ => "<list>"
  | .obj _ => "<dict>"

/-- Python `float(v)` on a JSON value: numbers pass through, strings are
parsed (`ValueError` on failure), booleans coerce, anything else raises
`TypeError`. -/
def pyFloat : JVal → Except PyErr Rat
  | .num q => .ok q
  | .str s =>
      match pyFloatOfString s with
      | some q => .ok q
      | none => .error .valueError
  | .bool b => .ok (if b then 1 else 0)
  | _ => .error .typeError

/-- Python `int(v)` on a JSON value: numbers truncate toward zero, strings
are parsed (`ValueError` on failure), booleans coerce, anything else raises
`TypeError`. -/
def pyToInt : JVal → Except PyErr Int
  | .num q => .ok (q.num / (q.den : Int))
  | .str s =>
      match pyIntOfString s with
      | some n => .ok n
      | none => .error .valueError
  | .bool b => .ok (if b then 1 else 0)
  | _ => .error .typeError

/-- Python `v.get(k, {})`: dict lookup with default, `AttributeError` when
`v` is not a dict. -/
def pyGetD (v : JVal) (k : String) : Except PyErr JVal :=
  match v with
  | .obj kvs => .ok ((jlookup kvs k).getD (JVal.obj []))
  | _ => .error .attributeError

/-! ## The facility record and the fetched-document model -/

/-- The per-facility record dict initialized at the top of
`scrape_data_center_page` (source lines 219-237).  Nullable fields are
`Option`; `certifications` starts as the empty list. -/
structure FacilityData where
  url : String
  name : Option String := none
  operator : Option String := none
  address : Option String := none
  city : Option String := none
  state : String := "Texas"
  country : String := "United States"
  postal_code : Option String := none
  latitude : Option Rat := none
  longitude : Option Rat := none
  power_capacity_mw : Option Rat := none
  building_size_sqft : Option Int := none
  whitespace_sqft : Option Int := none
  tier_rating : Option String := none
  year_operational : Option Int := none
  certifications : List String := []
  description : Option String := none
deriving DecidableEq, Repr

/-- The fresh record for a URL. -/
def initData (url : String) : FacilityData := { url := url }

/-- An HTML element as the extractor sees it: tag name, stripped text
(`get_text(strip=True)`), and `content` attribute (for `meta` tags). -/
structure Elem where
  tag : String
  text : String
  content : String

/-- A fetched-and-parsed facility page, abstracting the BeautifulSoup tree by
the queries the extractor performs on it.  `blob` is the `__NEXT_DATA__`
script: `none` when absent or with empty string, `some (.error ())` when
`json.loads` raises, `some (.ok j)` when it parses. -/
structure Doc where
  blob : Option (Except Unit JVal) := none
  selectOne : String → Option Elem := fun _ => none
  metaGeoPosition : Option String := none
  metaGeoLatitude : Option String := none
  metaGeoLongitude : Option String := none
  scriptTexts : List String := []
  specTexts : List String := []
  certTexts : List String := []

/-- Python falsiness of an optional string field of the record
(`not data[k]`: `None` or the empty string). -/
def optStrFalsy : Option String → Bool
  | none => true
  | some s => decide (s = "")

/-- Python falsiness of an optional float field (`None` or `0.0`). -/
def optRatFalsy : Option Rat → Bool
  | none => true
  | some q => decide (q = 0)

/-- Python falsiness of an optional int field (`None` or `0`). -/
def optIntFalsy : Option Int → Bool
  | none => true
  | some n => decide (n = 0)

/-! ## Tier 1: extraction from the `__NEXT_DATA__` structured blob
(source lines 239-309).

Inside the `try` block the record dict is mutated in place, so when one of the
caught exception classes is raised the fields already set survive; the error
value therefore carries the record at raise time.  `ValueError` is NOT in the
`except` tuple (line 308 catches `JSONDecodeError, KeyError, AttributeError,
TypeError` only). -/

abbrev JExc := FacilityData × PyErr

/-- One guarded string field: `if k in dc_data and dc_data[k]: data[f] = dc_data[k]`. -/
def strFieldStep (kvs : List (String × JVal)) (k : String)
    (upd : FacilityData → String → FacilityData) (r : FacilityData) : FacilityData :=
  match jlookup kvs k with
  | some v => if jtruthy v then upd r (pyStr v) else r
  | none => r

/-- One guarded float field: `if k in dc_data and dc_data[k]: data[f] = float(dc_data[k])`
with no inner `try`, so a coercion error propagates (with the record as
mutated so far). -/
def floatFieldStep (kvs : List (String × JVal)) (k : String)
    (upd : FacilityData → Rat → FacilityData) (r : FacilityData) :
    Except JExc FacilityData :=
  match jlookup kvs k with
  | some v =>
      if jtruthy v then
        match pyFloat v with
        | .ok q => .ok (upd r q)
        | .error e => .error (r, e)
      else .ok r
  | none => .ok r

/-- `meta_power` block (lines 268-274): `totalmw` coerced to float inside a
`try` catching `(ValueError, TypeError)`. -/
def powerStep (kvs : List (String × JVal)) (r : FacilityData) : FacilityData :=
  match (jlookup kvs "meta_power").getD (JVal.obj []) with
  | .obj mkvs =>
      if !mkvs.isEmpty then
        match jlookup mkvs "totalmw" with
        | some v =>
            match pyFloat v with
            | .ok q => { r with power_capacity_mw := some q }
            | .error _ => r
        | none => r
      else r
  | _ => r

/-- `meta_building` block (lines 276-293): three int coercions, each inside a
`try` catching `(ValueError, TypeError)`; membership is checked but not
truthiness. -/
def buildingMetaStep (kvs : List (String × JVal)) (r : FacilityData) : FacilityData :=
  match (jlookup kvs "meta_building").getD (JVal.obj []) with
  | .obj mkvs =>
      if !mkvs.isEmpty then
        let r1 :=
          match jlookup mkvs "area_building" with
          | some v =>
              match pyToInt v with
              | .ok n => { r with building_size_sqft := some n }
              | .error _ => r
          | none => r
        let r2 :=
          match jlookup mkvs "area_whitespace" with
          | some v =>
              match pyToInt v with
              | .ok n => { r1 with whitespace_sqft := some n }
              | .error _ => r1
          | none => r1
        match jlookup mkvs "year_operational" with
        | some v =>
            match pyToInt v with
            | .ok n => { r2 with year_operational := some n }
            | .error _ => r2
        | none => r2
      else r
  | _ => r

/-- `meta_standards` block (lines 295-300): `tier_designed`, stored as the
string `"TIER <value>"` when truthy. -/
def standardsStep (kvs : List (String × JVal)) (r : FacilityData) : FacilityData :=
  match (jlookup kvs "meta_standards").getD (JVal.obj []) with
  | .obj mkvs =>
      if !mkvs.isEmpty then
        match jlookup mkvs "tier_designed" with
        | some tv =>
            if jtruthy tv then
              { r with tier_rating := some (String.mk ("TIER ".data ++ (pyStr tv).data)) }
            else r
        | none => r
      else r
  | _ => r

/-- `companies` block (lines 302-305): the operator name, stored with no
truthiness check on the value. -/
def companiesStep (kvs : List (String × JVal)) (r : FacilityData) : FacilityData :=
  match (jlookup kvs "companies").getD (JVal.obj []) with
  | .obj mkvs =>
      if !mkvs.isEmpty then
        match jlookup mkvs "name" with
        | some v => { r with operator := some (pyStr v) }
        | none => r
      else r
  | _ => r

/-- Field extraction from the `dc` object, in source order: name, latitude,
longitude, city, postal, address, meta_power, meta_building, meta_standards,
companies. -/
def jsonExtract (kvs : List (String × JVal)) (r0 : FacilityData) :
    Except JExc FacilityData :=
  let r1 := strFieldStep kvs "name" (fun r s => { r with name := some s }) r0
  match floatFieldStep kvs "latitude" (fun r q => { r with latitude := some q }) r1 with
  | .error e => .error e
  | .ok r2 =>
    match floatFieldStep kvs "longitude" (fun r q => { r with longitude := some q }) r2 with
    | .error e => .error e
    | .ok r3 =>
      let r4 := strFieldStep kvs "city" (fun r s => { r with city := some s }) r3
      let r5 := strFieldStep kvs "postal" (fun r s => { r with postal_code := some s }) r4
      let r6 := strFieldStep kvs "address" (fun r s => { r with address := some s }) r5
      .ok (companiesStep kvs (standardsStep kvs (buildingMetaStep kvs (powerStep kvs r6))))

/-- The whole tier-1 `try` block (lines 240-309): find the script, parse,
navigate `props -> pageProps -> dc`, and extract when `dc` is a truthy dict.
Errors carry the partially updated record. -/
def jsonStage (d : Doc) (url : String) : Except JExc FacilityData :=
  let r0 := initData url
  match d.blob with
  | none => .ok r0
  | some (.error _) => .error (r0, .jsonDecodeError)
  | some (.ok j) =>
      match pyGetD j "props" with
      | .error e => .error (r0, e)
      | .ok props =>
        match pyGetD props "pageProps" with
        | .error e => .error (r0, e)
        | .ok pp =>
          match pyGetD pp "dc" with
          | .error e => .error (r0, e)
          | .ok dc =>
            match dc with
            | .obj kvs => if !kvs.isEmpty then jsonExtract kvs r0 else .ok r0
            | _ => .ok r0

/-! ## Hand-compiled scanners for the regular expressions of tiers 3 and 4

Each `find*` function realizes `re.search` for one concrete pattern of the
source: it tries every start position from the left, consuming greedily
(justified because in these patterns no character can both extend a greedy
subpattern and begin its continuation).  The tier-4 patterns are applied to
text the code has already lower-cased, so their literals are matched in lower
case; the tier-3(c) coordinate patterns run on raw script text with
`re.IGNORECASE`, hence use case-insensitive literal matching. -/

/-- Match of `(\d+(?:\.\d+)?)\s*mw` anchored at the start of `l`, returning
the float value of group 1. -/
def matchPowerAt (l : List Char) : Option Rat :=
  let ds := l.takeWhile isDig
  if ds.isEmpty then none
  else
    let r1 := l.dropWhile isDig
    let vr : Rat × List Char :=
      match r1 with
      | '.' :: t =>
          let fs := t.takeWhile isDig
          if fs.isEmpty then ((digitsToNat ds : Rat), r1)
          else (decOfParts ds fs, t.dropWhile isDig)
      | _ => ((digitsToNat ds : Rat), r1)
    match vr.2.dropWhile isWs with
    | 'm' :: 'w' :: _ => some vr.1
    | _ => none

/-- `re.search(r'(\d+(?:\.\d+)?)\s*mw', text)` on lower-cased text
(line 391), as `float(group(1))`. -/
def findPower : List Char → Option Rat
  | [] => none
  | c :: t =>
      match matchPowerAt (c :: t) with
      | some v => some v
      | none => findPower t

/-- A character of the class `[\d,]`. -/
def isDigComma (c : Char) : Bool := isDig c || c == ','

/-- The unit alternation `(?:sq\.?\s*ft|sqft|square\s*feet)` anchored at the
start of `l`. -/
def sqftUnitAt (l : List Char) : Bool :=
  (match l with
   | 's' :: 'q' :: r =>
       let r2 := match r with | '.' :: t => t | _ => r
       (match r2.dropWhile isWs with | 'f' :: 't' :: _ => true | _ => false)
   | _ => false)
  ||
  (match l with
   | 's' :: 'q' :: 'u' :: 'a' :: 'r' :: 'e' :: r =>
       (match r.dropWhile isWs with | 'f' :: 'e' :: 'e' :: 't' :: _ => true | _ => false)
   | _ => false)

/-- Match of `([\d,]+)\s*(?:sq\.?\s*ft|sqft|square\s*feet)` anchored at the
start, returning group 1. -/
def matchSizeAt (l : List Char) : Option (List Char) :=
  let g := l.takeWhile isDigComma
  if g.isEmpty then none
  else if sqftUnitAt ((l.dropWhile isDigComma).dropWhile isWs) then some g
  else none

/-- `re.search(r'([\d,]+)\s*(?:sq\.?\s*ft|sqft|square\s*feet)', text)`
(line 397), returning group 1. -/
def findSizeGroup : List Char → Option (List Char)
  | [] => none
  | c :: t =>
      match matchSizeAt (c :: t) with
      | some g => some g
      | none => findSizeGroup t

/-- The unit alternation `(?:sq\.?\s*ft|sqft)` anchored at the start. -/
def wsUnitAt (l : List Char) : Bool :=
  match l with
  | 's' :: 'q' :: r =>
      let r2 := match r with | '.' :: t => t | _ => r
      (match r2.dropWhile isWs with | 'f' :: 't' :: _ => true | _ => false)
  | _ => false

/-- Match of `whitespace[:\s]*([\d,]+)\s*(?:sq\.?\s*ft|sqft)` anchored at the
start, returning group 1. -/
def matchWsSqftAt (l : List Char) : Option (List Char) :=
  if chPre "whitespace".data l then
    let r1 := (l.drop 10).dropWhile (fun c => c == ':' || isWs c)
    let g := r1.takeWhile isDigComma
    if g.isEmpty then none
    else if wsUnitAt ((r1.dropWhile isDigComma).dropWhile isWs) then some g
    else none
  else none

/-- `re.search(r'whitespace[:\s]*([\d,]+)\s*(?:sq\.?\s*ft|sqft)', text)`
(line 403), returning group 1. -/
def findWsGroup : List Char → Option (List Char)
  | [] => none
  | c :: t =>
      match matchWsSqftAt (c :: t) with
      | some g => some g
      | none => findWsGroup t

/-- A character of the class `[IViv1-4]`. -/
def isTierChar (c : Char) : Bool :=
  c == 'I' || c == 'V' || c == 'i' || c == 'v' || ('1' ≤ c && c ≤ '4')

/-- Match of `tier\s*([IViv1-4]+)` anchored at the start, returning group 1. -/
def matchTierAt (l : List Char) : Option (List Char) :=
  if chPre "tier".data l then
    let r1 := (l.drop 4).dropWhile isWs
    let g := r1.takeWhile isTierChar
    if g.isEmpty then none else some g
  else none

/-- `re.search(r'tier\s*([IViv1-4]+)', text)` (line 409) on lower-cased text,
returning group 1. -/
def findTierGroup : List Char → Option (List Char)
  | [] => none
  | c :: t =>
      match matchTierAt (c :: t) with
      | some g => some g
      | none => findTierGroup t

/-- The keyword alternation `(?:year|opened|operational|built)` anchored at
the start, returning the remainder after the keyword. -/
def matchYearKw (l : List Char) : Option (List Char) :=
  if chPre "year".data l then some (l.drop 4)
  else if chPre "opened".data l then some (l.drop 6)
  else if chPre "operational".data l then some (l.drop 11)
  else if chPre "built".data l then some (l.drop 5)
  else none

/-- Match of `(?:year|opened|operational|built)[:\s]*(19|20)\d{2}` anchored
at the start.  NOTE: group 1 is `(19|20)` — the century prefix only — and
that is what the returned value is, exactly as `int(year_match.group(1))`
computes on line 417. -/
def matchYearAt (l : List Char) : Option Nat :=
  match matchYearKw l with
  | some r =>
      match r.dropWhile (fun c => c == ':' || isWs c) with
      | '1' :: '9' :: a :: b :: _ => if isDig a && isDig b then some 19 else none
      | '2' :: '0' :: a :: b :: _ => if isDig a && isDig b then some 20 else none
      | _ => none
  | none => none

/-- `re.search(r'(?:year|opened|operational|built)[:\s]*(19|20)\d{2}', text)`
(line 415) on lower-cased text, as `int(group(1))`. -/
def findYearGroup : List Char → Option Nat
  | [] => none
  | c :: t =>
      match matchYearAt (c :: t) with
      | some v => some v
      | none => findYearGroup t

/-- Match of `([+-]?\d+\.\d+)` anchored at the start, as a float. -/
def matchSignedFloatAt (l : List Char) : Option Rat :=
  let sr : Rat × List Char :=
    match l with
    | '+' :: t => (1, t)
    | '-' :: t => (-1, t)
    | t => (1, t)
  let ds := sr.2.takeWhile isDig
  if ds.isEmpty then none
  else
    match sr.2.dropWhile isDig with
    | '.' :: t2 =>
        let fs := t2.takeWhile isDig
        if fs.isEmpty then none else some (sr.1 * decOfParts ds fs)
    | _ => none

/-- Match of `lat[:\s]*([+-]?\d+\.\d+)` (IGNORECASE) anchored at the start. -/
def matchLatAt (l : List Char) : Option Rat :=
  if ciPre "lat".data l then
    matchSignedFloatAt ((l.drop 3).dropWhile (fun c => c == ':' || isWs c))
  else none

/-- `re.search(r'lat[:\s]*([+-]?\d+\.\d+)', script_text, re.IGNORECASE)`
(line 366), as `float(group(1))`. -/
def findLat : List Char → Option Rat
  | [] => none
  | c :: t =>
      match matchLatAt (c :: t) with
      | some v => some v
      | none => findLat t

/-- Match of `l(?:ng|on)[:\s]*([+-]?\d+\.\d+)` (IGNORECASE) anchored at the
start. -/
def matchLngAt (l : List Char) : Option Rat :=
  if ciPre "lng".data l || ciPre "lon".data l then
    matchSignedFloatAt ((l.drop 3).dropWhile (fun c => c == ':' || isWs c))
  else none

/-- `re.search(r'l(?:ng|on)[:\s]*([+-]?\d+\.\d+)', script_text, re.IGNORECASE)`
(line 367), as `float(group(1))`. -/
def findLng : List Char → Option Rat
  | [] => none
  | c :: t =>
      match matchLngAt (c :: t) with
      | some v => some v
      | none => findLng t

/-! ## Tiers 2-4, certifications and description (source lines 311-438) -/

/-- The heading filter of tier 2 (line 320): reject texts containing an
error-page phrase. -/
def nameOkText (t : String) : Bool :=
  !(chSub "full capacity".data (lowerStr t).data)
    && !(chSub "right place".data (lowerStr t).data)

/-- Tier-2 heading scan (lines 314-322): first selector whose element exists
and whose text passes the filter; an element with a rejected text does not
stop the scan. -/
def pickName (d : Doc) : List String → Option String
  | [] => none
  | sel :: rest =>
      match d.selectOne sel with
      | some e => if nameOkText e.text then some e.text else pickName d rest
      | none => pickName d rest

/-- The tier-2 name selectors (line 314). -/
def name_selectors : List String := ["h1.datacenter-name", "h1", ".facility-name"]

/-- Tier-2 name fallback, guarded by `if not data['name']` (line 312). -/
def htmlNameStage (d : Doc) (r : FacilityData) : FacilityData :=
  if optStrFalsy r.name then
    match pickName d name_selectors with
    | some t => { r with name := some t }
    | none => r
  else r

/-- Tier-2 operator scan (lines 326-334): first selector whose element exists
with non-empty, non-boilerplate text. -/
def pickOperator (d : Doc) : List String → Option String
  | [] => none
  | sel :: rest =>
      match d.selectOne sel with
      | some e =>
          if decide (e.text ≠ "") && decide (e.text ≠ "Follow on LinkedIn") then some e.text
          else pickOperator d rest
      | none => pickOperator d rest

/-- The tier-2 operator selectors (line 326). -/
def operator_selectors : List String :=
  [".provider-name", ".operator", ".company-name", "a[href*=\"/company/\"]"]

/-- Tier-2 operator fallback, guarded by `if not data['operator']` (line 325). -/
def htmlOperatorStage (d : Doc) (r : FacilityData) : FacilityData :=
  if optStrFalsy r.operator then
    match pickOperator d operator_selectors with
    | some t => { r with operator := some t }
    | none => r
  else r

/-- Tier-3 method 1 (lines 338-347): semicolon-separated `geo.position` meta
tag.  The two `float` calls run in one `try`, so when the first succeeds and
the second raises, latitude stays set. -/
def coordMethod1 (d : Doc) (r : FacilityData) : FacilityData :=
  if optRatFalsy r.latitude then
    match d.metaGeoPosition with
    | some content =>
        match splitSemi content.data with
        | [a, b] =>
            match pyFloatOfString (String.mk (trimChars a)) with
            | some la =>
                let r1 := { r with latitude := some la }
                match pyFloatOfString (String.mk (trimChars b)) with
                | some lo => { r1 with longitude := some lo }
                | none => r1
            | none => r
        | _ => r
    | none => r
  else r

/-- Tier-3 method 2 (lines 350-358): separate `geo.latitude` /
`geo.longitude` meta tags, same one-`try` partial-set behavior. -/
def coordMethod2 (d : Doc) (r : FacilityData) : FacilityData :=
  if optRatFalsy r.latitude then
    match d.metaGeoLatitude, d.metaGeoLongitude with
    | some latc, some lonc =>
        match pyFloatOfString latc with
        | some la =>
            let r1 := { r with latitude := some la }
            match pyFloatOfString lonc with
            | some lo => { r1 with longitude := some lo }
            | none => r1
        | none => r
    | _, _ => r
  else r

/-- Tier-3 method 3 inner loop (lines 362-378): scan scripts for a lat/lng
pair, accept the first pair inside the Texas bounding box and stop. -/
def scanScripts (r : FacilityData) : List String → FacilityData
  | [] => r
  | s :: rest =>
      match findLat s.data, findLng s.data with
      | some la, some lo =>
          if 25 ≤ la ∧ la ≤ 37 ∧ -107 ≤ lo ∧ lo ≤ -93 then
            { r with latitude := some la, longitude := some lo }
          else scanScripts r rest
      | _, _ => scanScripts r rest

/-- Tier-3 method 3, guarded by `if not data['latitude']` (line 361). -/
def coordMethod3 (d : Doc) (r : FacilityData) : FacilityData :=
  if optRatFalsy r.latitude then scanScripts r d.scriptTexts else r

/-- The whole tier-3 coordinate fallback chain. -/
def coordStage (d : Doc) (r : FacilityData) : FacilityData :=
  coordMethod3 d (coordMethod2 d (coordMethod1 d r))

/-- Tier-4 power step (lines 390-393). -/
def applyPowerRe (t : List Char) (r : FacilityData) : FacilityData :=
  if optRatFalsy r.power_capacity_mw then
    match findPower t with
    | some q => { r with power_capacity_mw := some q }
    | none => r
  else r

/-- Tier-4 building-size step (lines 396-399): `int(group(1).replace(',', ''))`
has no `try`, so a group consisting solely of commas raises `ValueError`. -/
def applyBuildingRe (t : List Char) (r : FacilityData) : Except PyErr FacilityData :=
  if optIntFalsy r.building_size_sqft then
    match findSizeGroup t with
    | some g =>
        let ds := g.filter (fun c => c != ',')
        if ds.isEmpty then .error .valueError
        else .ok { r with building_size_sqft := some (digitsToNat ds : Int) }
    | none => .ok r
  else .ok r

/-- Tier-4 whitespace step (lines 402-405), same unprotected `int`. -/
def applyWsRe (t : List Char) (r : FacilityData) : Except PyErr FacilityData :=
  if optIntFalsy r.whitespace_sqft then
    match findWsGroup t with
    | some g =>
        let ds := g.filter (fun c => c != ',')
        if ds.isEmpty then .error .valueError
        else .ok { r with whitespace_sqft := some (digitsToNat ds : Int) }
    | none => .ok r
  else .ok r

/-- Tier-4 tier-rating step (lines 408-411): stores `group(1).upper()`. -/
def applyTierRe (t : List Char) (r : FacilityData) : FacilityData :=
  if optStrFalsy r.tier_rating then
    match findTierGroup t with
    | some g => { r with tier_rating := some (upperStr (String.mk g)) }
    | none => r
  else r

/-- Tier-4 year step (lines 414-417): stores `int(group(1))`, i.e. the
century prefix 19 or 20. -/
def applyYearRe (t : List Char) (r : FacilityData) : FacilityData :=
  if optIntFalsy r.year_operational then
    match findYearGroup t with
    | some c => { r with year_operational := some (c : Int) }
    | none => r
  else r

/-- Processing of one specification element (loop body, lines 386-417): the
element's text is lower-cased, then the five guarded regex extractions run in
source order. -/
def applySpecText (r : FacilityData) (rawText : String) : Except PyErr FacilityData :=
  let t := (lowerStr rawText).data
  let r1 := applyPowerRe t r
  match applyBuildingRe t r1 with
  | .error e => .error e
  | .ok r2 =>
      match applyWsRe t r2 with
      | .error e => .error e
      | .ok r3 => .ok (applyYearRe t (applyTierRe t r3))

/-- The tier-4 loop over all specification-like elements (line 384:
`.spec-item, .specification, tr, li, p, div`). -/
def specLoop : FacilityData → List String → Except PyErr FacilityData
  | r, [] => .ok r
  | r, t :: rest =>
      match applySpecText r t with
      | .ok r2 => specLoop r2 rest
      | .error e => .error e

/-- The certification keywords (line 420). -/
def cert_keywords : List String := ["iso", "leed", "tier", "uptime", "soc", "pci", "hipaa"]

/-- Certification collection (lines 420-425): append every non-empty element
text containing a keyword, duplicates kept. -/
def certStage (d : Doc) (r : FacilityData) : FacilityData :=
  { r with certifications := r.certifications ++
      d.certTexts.filter (fun t =>
        decide (t ≠ "") && cert_keywords.any (fun k => chSub k.data (lowerStr t).data)) }

/-- Description selectors (line 428). -/
def desc_selectors : List String :=
  [".description", ".about", ".overview", "meta[name=\"description\"]"]

/-- Description scan (lines 428-436): first selector with an element wins;
for a `meta` tag the stripped `content` attribute is used. -/
def pickDesc (d : Doc) : List String → Option String
  | [] => none
  | sel :: rest =>
      match d.selectOne sel with
      | some e =>
          some (if e.tag = "meta" then String.mk (trimChars e.content.data) else e.text)
      | none => pickDesc d rest

/-- Description stage. -/
def descStage (d : Doc) (r : FacilityData) : FacilityData :=
  match pickDesc d desc_selectors with
  | some t => { r with description := some t }
  | none => r

/-- Everything after the tier-1 `try`/`except` (lines 311-438): name and
operator HTML fallbacks, coordinate fallbacks, the tier-4 regex loop,
certifications, description. -/
def laterStages (d : Doc) (r : FacilityData) : Except PyErr FacilityData :=
  match specLoop (coordStage d (htmlOperatorStage d (htmlNameStage d r))) d.specTexts with
  | .ok r4 => .ok (descStage d (certStage d r4))
  | .error e => .error e

/-- Whether tier 1's pending exception is caught by the `except` tuple on
line 308 (`JSONDecodeError, KeyError, AttributeError, TypeError` —
`ValueError` is not). -/
def caughtByExcept : PyErr → Bool
  | .valueError => false
  | _ => true

/-- `scrape_data_center_page` given the fetched document (lines 219-438): run
tier 1; a caught exception logs a warning and execution continues with the
partially filled record; an uncaught exception propagates to the caller. -/
def scrape_data_center_page (d : Doc) (url : String) : Except PyErr FacilityData :=
  match jsonStage d url with
  | .ok r => laterStages d r
  | .error (r, e) => if caughtByExcept e then laterStages d r else .error e

/-! ## Checkpointed run controller (`scrape_all_texas`, lines 486-508)

The loop is modelled on the list of per-URL scrape outcomes (after the
`max_datacenters` cap and the `start_index` slice), `none` standing for a
fetch/extraction failure.  The files the loop writes are the observable
output; a file is identified by its tag (`<prefix>_chunk_<index>.csv` or
`<prefix>_final.csv`). -/

/-- Identity of an output file of one run. -/
inductive OutFile where
  | chunk : Nat → OutFile
  | final : OutFile
deriving DecidableEq, Repr

/-- Rendering of an output-file tag to its file name (lines 500 and 507). -/
def outFileName (p : String) : OutFile → String
  | .chunk i => String.mk (p.data ++ "_chunk_".data ++ (toString i).data ++ ".csv".data)
  | .final => String.mk (p.data ++ "_final.csv".data)

/-- The keep test of line 491: `if dc_data and dc_data['name']`. -/
def keepOutcome : Option FacilityData → Bool
  | some r => !optStrFalsy r.name
  | none => false

/-- The records kept from a list of outcomes, in order. -/
def keptRecords (outs : List (Option FacilityData)) : List FacilityData :=
  outs.filterMap (fun o => if keepOutcome o then o else none)

/-- The scraping loop (lines 487-508): `idx` enumerates from `start_index`;
after each outcome, when `(idx + 1) % chunk_size == 0` the accumulated kept
records are written as a new checkpoint; after the loop the final file is
always written. -/
def runChunks (chunkSize : Nat) :
    List (Option FacilityData) → Nat → List FacilityData → List (OutFile × List FacilityData)
  | [], _, acc => [(.final, acc)]
  | o :: rest, idx, acc =>
      let acc2 := if keepOutcome o then acc ++ [o.getD (initData "")] else acc
      (if (idx + 1) % chunkSize = 0 then [(OutFile.chunk (idx + 1), acc2)] else [])
        ++ runChunks chunkSize rest (idx + 1) acc2

/-- `scrape_all_texas` restricted to its persistence behavior: the files it
writes, given the outcomes of the (already sliced) URL list and the start
index. -/
def scrape_all_texas (outcomes : List (Option FacilityData))
    (chunkSize startIndex : Nat) : List (OutFile × List FacilityData) :=
  runChunks chunkSize outcomes startIndex []

/-! ## Checkpoint merge (`merge_chunks`, lines 514-557)

A directory is a list of (file name, rows) pairs with distinct names; the
glob `<prefix>_chunk_*.csv` is the name filter, `sorted(...)` the name sort. -/

/-- Does a file name match the glob `<p>_chunk_*.csv` (line 528)? -/
def matchesChunkGlob (p : String) (fname : String) : Bool :=
  chPre (p.data ++ "_chunk_".data) fname.data
    && chPre ".csv".data.reverse fname.data.reverse

/-- `drop_duplicates(subset=['url'], keep='last')` (line 549): a row is kept
iff no later row has the same url, original order preserved. -/
def dedupKeepLast : List FacilityData → List FacilityData
  | [] => []
  | r :: rest =>
      if rest.any (fun x => decide (x.url = r.url)) then dedupKeepLast rest
      else r :: dedupKeepLast rest

/-- Insertion of a directory entry by file name (for the sort). -/
def insertByName (e : String × List FacilityData) :
    List (String × List FacilityData) → List (String × List FacilityData)
  | [] => [e]
  | f :: t => if decide (e.1 ≤ f.1) then e :: f :: t else f :: insertByName e t

/-- Sort of directory entries by file name, as `sorted(glob.glob(...))`
(line 529); directory file names are distinct, so any comparison sort gives
the same list. -/
def sortByName : List (String × List FacilityData) → List (String × List FacilityData)
  | [] => []
  | e :: t => insertByName e (sortByName t)

/-- The rows `merge_chunks` computes from a directory: chunk files in
file-name-sorted order, concatenated, deduplicated by url keeping the last
occurrence (lines 539-549). -/
def merge_chunks_rows (p : String) (dir : List (String × List FacilityData)) :
    List FacilityData :=
  dedupKeepLast (((sortByName (dir.filter (fun e => matchesChunkGlob p e.1))).map
    (fun e => e.2)).flatten)

/-- The merged-output file name (line 553). -/
def mergedFileName (p : String) : String := String.mk (p.data ++ "_merged.csv".data)

/-- Writing a file into a directory (overwrite by name). -/
def writeFileD (dir : List (String × List FacilityData)) (n : String)
    (rows : List FacilityData) : List (String × List FacilityData) :=
  dir.filter (fun e => decide (e.1 ≠ n)) ++ [(n, rows)]

/-- One run of `merge_chunks` as a directory transformer: with no chunk files
it writes nothing (lines 531-533), otherwise it writes the merged file. -/
def merge_chunks_run (p : String) (dir : List (String × List FacilityData)) :
    List (String × List FacilityData) :=
  if (dir.filter (fun e => matchesChunkGlob p e.1)).isEmpty then dir
  else writeFileD dir (mergedFileName p) (merge_chunks_rows p dir)

/-! ## Facility-URL discovery (`get_texas_datacenter_urls`, lines 189-203)

The inputs are the per-city facility-link lists (after the path-pattern
filters); `get_datacenters_from_city` deduplicates within one city
(`if full_url not in dc_urls`, line 153), and the global pass (lines
194-203) deduplicates the concatenation with a seen-set, preserving order. -/

/-- The seen-set deduplication loop of lines 195-200 (also the in-city
membership test of line 153), with the seen set as a list used only through
membership. -/
def dedupSeen (seen : List String) : List String → List String
  | [] => []
  | u :: rest =>
      if u ∈ seen then dedupSeen seen rest
      else u :: dedupSeen (u :: seen) rest

/-- First-seen-order deduplication of a URL list. -/
def dedupFirstSeen (l : List String) : List String := dedupSeen [] l

/-- `get_datacenters_from_city` restricted to its dedup behavior on the
extracted links. -/
def get_datacenters_from_city (links : List String) : List String :=
  dedupFirstSeen links

/-- `get_texas_datacenter_urls` on the per-city link lists: per-city dedup,
concatenation in city order, global first-seen dedup. -/
def get_texas_datacenter_urls (cityLists : List (List String)) : List String :=
  dedupFirstSeen (cityLists.map get_datacenters_from_city).flatten

/-- The canonical "first occurrences" view: keep each element's first
occurrence at its position, deleting every later duplicate. -/
def firstOccurrences : List String → List String
  | [] => []
  | u :: rest => u :: firstOccurrences (rest.filter (fun x => decide (x ≠ u)))
termination_by l => l.length
decreasing_by
  simp only [List.length_cons]
  exact Nat.lt_succ_of_le (List.length_filter_le _ _)

/-! ## Quality triage and re-scrape (`02_rescrape_bad_urls.py`) -/

/-- The triage phrase list of `identify_bad_records` (line 24):
`['full capacity', 'right place', "you're in the right"]`. -/
def error_patterns : List String :=
  ["full capacity", "right place",
   String.mk ("you".data ++ [Char.ofNat 39] ++ "re in the right".data)]

/-- `df['name'].str.contains('|'.join(error_patterns), case=False, na=False)`
on one row: a missing name never matches. -/
def nameMatchesError : Option String → Bool
  | none => false
  | some s => error_patterns.any (fun p => chSub p.data (lowerStr s).data)

/-- The re-check of line 88: only `'full capacity'` and `'right place'` are
tested against the lower-cased re-scraped name. -/
def rescrapePhraseBad (s : String) : Bool :=
  chSub "full capacity".data (lowerStr s).data
    || chSub "right place".data (lowerStr s).data

/-- Classification of one re-scrape outcome (lines 86-96): "fixed" iff the
result exists, has a truthy name, and the name passes the two-phrase
re-check. -/
def rescrapeFixed : Option FacilityData → Bool
  | some r =>
      match r.name with
      | some s => decide (s ≠ "") && !rescrapePhraseBad s
      | none => false
  | none => false

/-- The re-scrape loop (lines 81-96) over the bad URLs, given the per-URL
re-scrape outcome: returns (fixed records in order, still-bad URLs in
order). -/
def rescrapeLoop (results : String → Option FacilityData) :
    List String → List FacilityData × List String
  | [] => ([], [])
  | u :: rest =>
      let t := rescrapeLoop results rest
      match results u with
      | some r =>
          match r.name with
          | some s =>
              if decide (s ≠ "") && !rescrapePhraseBad s then (r :: t.1, t.2)
              else (t.1, u :: t.2)
          | none => (t.1, u :: t.2)
      | none => (t.1, u :: t.2)

/-- `rescrape_bad_urls` on the loaded dataset rows and the re-scrape oracle:
partition by the triage phrases, re-scrape the bad rows' URLs, and when
anything was fixed, write good rows + fixed rows deduplicated by url keeping
the last (lines 106-121); with nothing fixed, no corrected dataset is written
(lines 148-149). -/
def rescrape_bad_urls (rows : List FacilityData)
    (results : String → Option FacilityData) :
    Option (List FacilityData) × List String :=
  let bad := rows.filter (fun r => nameMatchesError r.name)
  let good := rows.filter (fun r => !nameMatchesError r.name)
  let fs := rescrapeLoop results (bad.map (fun r => r.url))
  if fs.1.isEmpty then (none, fs.2)
  else (some (dedupKeepLast (good ++ fs.1)), fs.2)

/-! ## Politeness-gated fetcher (`get_page`, lines 44-69) -/

/-- The robots.txt denylist of line 55. -/
def disallowed_paths : List String :=
  ["/ui/", "/api/", "/visit/", "/as/", "/legal/", "/c/"]

/-- Observable side effects of one `get_page` call. -/
inductive FetchEvent where
  | sleep : Rat → FetchEvent
  | request : String → FetchEvent
deriving DecidableEq, Repr

/-- `get_page`: the denylist test is `if path in url` — a substring test on
the WHOLE url string (line 57); on a hit, return `None` with no sleep and no
request; otherwise sleep the configured delay, then issue the single request,
whose outcome (parsed document, or `None` on any transport failure) is the
oracle `net`. -/
def get_page (delay : Rat) (net : String → Option Doc) (url : String) :
    List FetchEvent × Option Doc :=
  if disallowed_paths.any (fun p => chSub p.data url.data) then ([], none)
  else ([.sleep delay, .request url], net url)

/-- Helper for `specPathOf`: drop everything through the first `://`. -/
def dropScheme : List Char → List Char
  | [] => []
  | ':' :: '/' :: '/' :: t => t
  | _ :: t => dropScheme t

/-- Modelled from the spec: the spec speaks of a URL's *path* containing a
denylist member; the source never parses the URL, so the path is defined here
from the spec's words — the part of the URL after the scheme and authority
and before any query or fragment. -/
def specPathOf (url : String) : String :=
  String.mk (((dropScheme url.data).dropWhile (fun c => c ≠ '/')).takeWhile
    (fun c => c ≠ '?' && c ≠ '#'))

/-! ## Auxiliary predicates and concrete example inputs -/

/-- The record fields the tier-4 regex loop never writes. -/
def SpecUntouched (r r' : FacilityData) : Prop :=
  r'.url = r.url ∧ r'.name = r.name ∧ r'.operator = r.operator ∧ r'.address = r.address ∧
  r'.city = r.city ∧ r'.state = r.state ∧ r'.country = r.country ∧
  r'.postal_code = r.postal_code ∧ r'.latitude = r.latitude ∧ r'.longitude = r.longitude ∧
  r'.certifications = r.certifications ∧ r'.description = r.description

/-- Monotonicity contract of the tier-4 loop: untouched fields are equal, and
each of its five writable fields is preserved when Python-truthy. -/
def SpecMono (r r' : FacilityData) : Prop :=
  SpecUntouched r r' ∧
  (optRatFalsy r.power_capacity_mw = false → r'.power_capacity_mw = r.power_capacity_mw) ∧
  (optIntFalsy r.building_size_sqft = false → r'.building_size_sqft = r.building_size_sqft) ∧
  (optIntFalsy r.whitespace_sqft = false → r'.whitespace_sqft = r.whitespace_sqft) ∧
  (optStrFalsy r.tier_rating = false → r'.tier_rating = r.tier_rating) ∧
  (optIntFalsy r.year_operational = false → r'.year_operational = r.year_operational)

/-- A document whose blob sets `power_capacity_mw` to `0.0`
(`totalmw = "0"`) and `longitude` to `-96.0` while leaving `latitude` unset,
with a `geo.position` meta tag and a page mentioning `10 mw`. -/
def c1Doc : Doc :=
  { blob := some (.ok (JVal.obj [("props", JVal.obj [("pageProps", JVal.obj
      [("dc", JVal.obj [("longitude", JVal.str "-96"),
        ("meta_power", JVal.obj [("totalmw", JVal.str "0")])])])])])),
    metaGeoPosition := some "32;-97",
    specTexts := ["10 mw"] }

/-- The record after tier 1 on `c1Doc`. -/
def c1Stage1 : FacilityData :=
  match jsonStage c1Doc "u" with
  | .ok r => r
  | .error e => e.1

/-- The record returned by the whole extractor on `c1Doc`. -/
def c1Final : FacilityData :=
  match scrape_data_center_page c1Doc "u" with
  | .ok r => r
  | .error _ => initData ""

/-- Witness document for the claim's own example: page text contains
`10 MW`. -/
def c1wDoc : Doc := { specTexts := ["the site offers 10 MW of capacity"] }

/-- Record as tier 1 leaves it when the blob carried `power = 5.0`. -/
def c1wRec : FacilityData := { initData "u" with power_capacity_mw := some 5 }

/-- The record after the later tiers run on `c1wRec`. -/
def c1wRes : FacilityData :=
  match laterStages c1wDoc c1wRec with
  | .ok r => r
  | .error _ => initData ""

/-- A document whose blob has a non-numeric latitude string. -/
def c2Doc : Doc :=
  { blob := some (.ok (JVal.obj [("props", JVal.obj [("pageProps", JVal.obj
      [("dc", JVal.obj [("latitude", JVal.str "not-a-number")])])])])) }

/-- A document whose only specification element reads `opened: 2015`. -/
def c3Doc : Doc := { specTexts := ["opened: 2015"] }

/-- A record with the given url and name. -/
def namedRec (s : String) : FacilityData := { url := s, name := some s }

/-- Five per-URL outcomes for the chunk-size-2 run scenario: a success, a
failure, a success, a nameless record, a success. -/
def c4Outs : List (Option FacilityData) :=
  [some (namedRec "u1"), none, some (namedRec "u3"),
   some { url := "u4", name := some "" }, some (namedRec "u5")]

/-- The apostrophe character (kept out of string literals). -/
def apostrophe : Char := Char.ofNat 39

/-- A name matching the third triage phrase (`you're in the right`) but
neither of the two phrases the re-scrape loop re-checks. -/
def c7TrapName : String :=
  String.mk ("You".data ++ [apostrophe] ++ "re in the right spot".data)

/-- A re-scraped record carrying `c7TrapName`. -/
def c7TrapRec : FacilityData := { url := "https://example.com/dc1/", name := some c7TrapName }

/-- Re-scrape oracle returning `c7TrapRec` for its URL. -/
def c7TrapRes : String → Option FacilityData :=
  fun u => if u = "https://example.com/dc1/" then some c7TrapRec else none

/-- A good row, and two bad rows of which the re-scrape fixes one. -/
def c7wGood : FacilityData := { url := "ug", name := some "Alpha DC" }

/-- Bad row 1 (placeholder name). -/
def c7wBad1 : FacilityData := { url := "u1", name := some "At full capacity" }

/-- Bad row 2 (placeholder name). -/
def c7wBad2 : FacilityData := { url := "u2", name := some "Not the right place" }

/-- A three-row dataset for the re-scrape witness. -/
def c7wRows : List FacilityData := [c7wGood, c7wBad1, c7wBad2]

/-- Witness re-scrape oracle: `u1` comes back fixed, `u2` still bad. -/
def c7wRes : String → Option FacilityData :=
  fun u =>
    if u = "u1" then some { url := "u1", name := some "Beta DC" }
    else if u = "u2" then some { url := "u2", name := some "Still at full capacity" }
    else none

/-- A dataset row with a missing name. -/
def c9wNone : FacilityData := { url := "u0", name := none }

/-- Dataset for the missing-name witness: the nameless row plus a bad row
that the `c7wRes` oracle fixes. -/
def c9wRows : List FacilityData := [c9wNone, c7wBad1]

/-- Specification text exercising the tier-4 tier-rating regex. -/
def c10Texts : List String := ["rated tier iii by uptime"]

/-- The record produced by the tier-4 loop on `c10Texts`. -/
def c10Res : FacilityData :=
  match specLoop (initData "u") c10Texts with
  | .ok r => r
  | .error _ => initData ""

/-- A network oracle that always fails (transport failure). -/
def noNet : String → Option Doc := fun _ => none

/-- A URL whose path contains no denylist segment but whose query string
contains `/api/`. -/
def c8TrapUrl : String := "https://www.datacentermap.com/usa/texas/dallas/foo/?from=/api/x"

/-- A URL containing no denylist segment at all. -/
def c8CleanUrl : String := "https://www.datacentermap.com/usa/texas/dallas/foo/"

/-! # Theorems -/

/-! ## C2: error semantics of the field extractor -/

/-- Claim C2 (code-bug evidence): on a document whose structured blob carries
a non-numeric latitude string, `scrape_data_center_page` does NOT return a
record — the `ValueError` raised by `float(dc_data['latitude'])` (line 256)
is absent from the `except` tuple of line 308 and escapes the function. -/
theorem c2_latitude_valueerror_escapes :
    scrape_data_center_page c2Doc "https://example.com/dc/" = .error .valueError := by
  rfl

/-! ## C3: the tier-4 year regex -/

/-- Claim C3 (code-bug evidence): on a page whose text contains
`opened: 2015`, the returned record's `year_operational` is `20`, not `2015`:
group 1 of `(?:year|opened|operational|built)[:\s]*(19|20)\d{2}` is the
two-digit century alternation, and line 417 stores `int(group(1))`. -/
theorem c3_year_stores_century_not_year :
    (scrape_data_center_page c3Doc "u").map (fun r => r.year_operational)
        = .ok (some 20) ∧
    (scrape_data_center_page c3Doc "u").map (fun r => r.year_operational)
        ≠ .ok (some 2015) := by
  refine ⟨rfl, ?_⟩
  rw [show (scrape_data_center_page c3Doc "u").map (fun r => r.year_operational)
      = Except.ok (some 20) from rfl]
  simp

/-! ## C8: the politeness-gated fetcher -/

/-- Claim C8 (counterexample): a URL whose path contains no denylist segment,
but whose query string contains `/api/`, is rejected with no sleep and no
request — the code tests `path in url` on the whole URL string (line 57), so
"every other URL sleeps before the single request" is false when "other" is
read on the URL's path. -/
theorem c8_counterexample :
    disallowed_paths.any (fun p => chSub p.data (specPathOf c8TrapUrl).data) = false ∧
    get_page 30 noNet c8TrapUrl = ([], none) := by
  exact ⟨by decide, rfl⟩

/-- Claim C8 (amended): for every URL whose WHOLE URL STRING contains a
member of the fixed denylist, `get_page` returns the absent result with no
sleep and no request; for every other URL it sleeps the configured delay and
then issues the single request, returning the transport outcome. -/
theorem c8_denylist_gate (delay : Rat) (net : String → Option Doc) (url : String) :
    (disallowed_paths.any (fun p => chSub p.data url.data) = true →
        get_page delay net url = ([], none)) ∧
    (disallowed_paths.any (fun p => chSub p.data url.data) = false →
        get_page delay net url = ([.sleep delay, .request url], net url)) := by
  constructor <;> intro h <;> simp [get_page, h]

/-- Witness for `c8_denylist_gate` at a clean URL. -/
theorem c8_denylist_gate_witness :
    disallowed_paths.any (fun p => chSub p.data c8CleanUrl.data) = false ∧
    get_page 30 noNet c8CleanUrl = ([.sleep 30, .request c8CleanUrl], noNet c8CleanUrl) :=
  ⟨by decide, (c8_denylist_gate 30 noNet c8CleanUrl).2 (by decide)⟩

/-! ## C5: idempotence of the checkpoint merge -/

/-- Prefix tests ignore a common left part. -/
theorem chPre_append_left (a : List Char) :
    ∀ b d, chPre (a ++ b) (a ++ d) = chPre b d := by
  induction a with
  | nil => intro b d; rfl
  | cons c t ih => intro b d; simp [chPre, ih]

/-- The merged-output file never matches the chunk glob of the same tag. -/
theorem glob_not_merged (p : String) :
    matchesChunkGlob p (mergedFileName p) = false := by
  unfold matchesChunkGlob mergedFileName
  have h : chPre (p.data ++ "_chunk_".data) (String.mk (p.data ++ "_merged.csv".data)).data
      = false := by
    show chPre (p.data ++ "_chunk_".data) (p.data ++ "_merged.csv".data) = false
    rw [chPre_append_left]
    decide
  rw [h]
  rfl

/-- Claim C5: re-running the merge over the directory produced by a merge run
yields the same rows (hence the same row count): the merged output file does
not match the chunk glob, so the second run sees exactly the same chunk
files. -/
theorem c5_merge_idempotent (p : String) (dir : List (String × List FacilityData)) :
    merge_chunks_rows p (merge_chunks_run p dir) = merge_chunks_rows p dir := by
  unfold merge_chunks_run
  split
  · rfl
  · have hfil : ∀ rows, (writeFileD dir (mergedFileName p) rows).filter
        (fun e => matchesChunkGlob p e.1) = dir.filter (fun e => matchesChunkGlob p e.1) := by
      intro rows
      unfold writeFileD
      rw [List.filter_append, List.filter_filter]
      have h1 : List.filter (fun e => matchesChunkGlob p e.1)
          [(mergedFileName p, rows)] = [] := by
        simp [List.filter, glob_not_merged]
      rw [h1, List.append_nil]
      apply List.filter_congr
      intro e _
      cases hg : matchesChunkGlob p e.1 with
      | false => simp [hg]
      | true =>
          have hne : e.1 ≠ mergedFileName p := by
            intro hEq
            rw [hEq, glob_not_merged] at hg
            exact Bool.false_ne_true hg
          simp [hg, hne]
    unfold merge_chunks_rows
    rw [hfil]

/-! ## C4: checkpointing behavior of the run controller -/

/-- Kept records of a cons of outcomes. -/
theorem keptRecords_cons (o : Option FacilityData) (l : List (Option FacilityData)) :
    keptRecords (o :: l)
      = (if keepOutcome o then [o.getD (initData "")] else []) ++ keptRecords l := by
  cases o with
  | none => simp [keptRecords, keepOutcome]
  | some r =>
      by_cases h : keepOutcome (some r)
      · simp [keptRecords, List.filterMap_cons, h]
      · simp [keptRecords, List.filterMap_cons, h]

/-- Closed form of the scraping loop: given start index `s` and accumulated
records `acc`, the files written are one checkpoint for each position whose
1-based adjusted index is a multiple of `c`, holding all records kept so far,
followed by the final file holding everything. -/
theorem runChunks_closed (c : Nat) (outs : List (Option FacilityData)) :
    ∀ (s : Nat) (acc : List FacilityData),
      runChunks c outs s acc =
        ((List.range outs.length).filterMap (fun i =>
          if (s + i + 1) % c = 0 then
            some (OutFile.chunk (s + i + 1), acc ++ keptRecords (outs.take (i + 1)))
          else none))
        ++ [(.final, acc ++ keptRecords outs)] := by
  induction outs with
  | nil => intro s acc; simp [runChunks, keptRecords]
  | cons o rest ih =>
      intro s acc
      have hstep : runChunks c (o :: rest) s acc =
          (if (s + 1) % c = 0 then
            [(OutFile.chunk (s + 1),
              if keepOutcome o then acc ++ [o.getD (initData "")] else acc)]
          else [])
          ++ runChunks c rest (s + 1)
              (if keepOutcome o then acc ++ [o.getD (initData "")] else acc) := by
        simp only [runChunks]
      set A := if keepOutcome o then acc ++ [o.getD (initData "")] else acc with hA
      have htake1 : acc ++ keptRecords ((o :: rest).take 1) = A := by
        rw [show (o :: rest).take 1 = [o] from rfl, keptRecords_cons]
        by_cases h : keepOutcome o <;> simp [h, hA, keptRecords]
      have htakeS : ∀ i : Nat,
          acc ++ keptRecords ((o :: rest).take (i + 2)) = A ++ keptRecords (rest.take (i + 1)) := by
        intro i
        rw [List.take_succ_cons, keptRecords_cons]
        by_cases h : keepOutcome o <;> simp [h, hA]
      have hall : acc ++ keptRecords (o :: rest) = A ++ keptRecords rest := by
        rw [keptRecords_cons]
        by_cases h : keepOutcome o <;> simp [h, hA]
      rw [hstep, ih (s + 1) A]
      rw [List.length_cons, List.range_succ_eq_map, List.filterMap_cons, List.filterMap_map]
      have hf0 : (if (s + 0 + 1) % c = 0 then
            some (OutFile.chunk (s + 0 + 1), acc ++ keptRecords ((o :: rest).take (0 + 1)))
          else none)
          = if (s + 1) % c = 0 then some (OutFile.chunk (s + 1), A) else none := by
        simp only [Nat.add_zero, Nat.zero_add, htake1]
      have hcomp : ((fun i =>
            if (s + i + 1) % c = 0 then
              some (OutFile.chunk (s + i + 1), acc ++ keptRecords ((o :: rest).take (i + 1)))
            else none) ∘ Nat.succ)
          = (fun i =>
            if (s + 1 + i + 1) % c = 0 then
              some (OutFile.chunk (s + 1 + i + 1), A ++ keptRecords (rest.take (i + 1)))
            else none) := by
        funext i
        have harith : s + (i + 1) + 1 = s + 1 + i + 1 := by omega
        simp only [Function.comp, Nat.succ_eq_add_one, harith, htakeS i]
      rw [hf0, hcomp, hall]
      by_cases hmod : (s + 1) % c = 0 <;> simp [hmod]

/-- Claim C4: for every run (outcomes of the sliced URL list, positive chunk
size, start offset) the files written are exactly: a checkpoint at every
position whose 1-based offset-adjusted index is a multiple of the chunk size,
tagged with that index (distinct indices, so distinct file names) and
containing all records kept so far, plus one final file, written last,
containing every record whose extraction yielded a truthy name.  (The
positivity hypothesis mirrors Python, where `% 0` would raise.) -/
theorem c4_checkpoint_files (outs : List (Option FacilityData)) (c s : Nat)
    (_hc : 0 < c) :
    scrape_all_texas outs c s =
      ((List.range outs.length).filterMap (fun i =>
        if (s + i + 1) % c = 0 then
          some (OutFile.chunk (s + i + 1), keptRecords (outs.take (i + 1)))
        else none))
      ++ [(.final, keptRecords outs)] := by
  have h := runChunks_closed c outs s []
  simpa [scrape_all_texas] using h

/-- Witness for `c4_checkpoint_files`: the spec's scenario — chunk size 2
over 5 URLs — produces checkpoints at adjusted indices 2 and 4 plus one
final file with all successfully-named records. -/
theorem c4_checkpoint_files_witness :
    0 < 2 ∧ scrape_all_texas c4Outs 2 0 =
      [(OutFile.chunk 2, [namedRec "u1"]),
       (OutFile.chunk 4, [namedRec "u1", namedRec "u3"]),
       (OutFile.final, [namedRec "u1", namedRec "u3", namedRec "u5"])] := by
  refine ⟨by decide, ?_⟩
  have h := c4_checkpoint_files c4Outs 2 0 (by decide)
  rw [h]
  decide

/-! ## C6: discovery deduplication -/

/-- The dedup loop depends on the seen set only through membership. -/
theorem dedupSeen_congr (l : List String) :
    ∀ s1 s2, (∀ x, x ∈ s1 ↔ x ∈ s2) → dedupSeen s1 l = dedupSeen s2 l := by
  induction l with
  | nil => intro s1 s2 _; rfl
  | cons u rest ih =>
      intro s1 s2 h
      by_cases hu : u ∈ s1
      · rw [dedupSeen, dedupSeen, if_pos hu, if_pos ((h u).mp hu)]
        exact ih s1 s2 h
      · rw [dedupSeen, dedupSeen, if_neg hu, if_neg (fun hx => hu ((h u).mpr hx))]
        have h2 : ∀ x, x ∈ u :: s1 ↔ x ∈ u :: s2 := by
          intro x
          simp only [List.mem_cons]
          exact or_congr Iff.rfl (h x)
        rw [ih (u :: s1) (u :: s2) h2]

/-- Membership in the dedup result. -/
theorem mem_dedupSeen (l : List String) :
    ∀ s x, x ∈ dedupSeen s l ↔ x ∈ l ∧ x ∉ s := by
  induction l with
  | nil => intro s x; simp [dedupSeen]
  | cons u rest ih =>
      intro s x
      by_cases hu : u ∈ s
      · rw [dedupSeen, if_pos hu, ih]
        simp only [List.mem_cons]
        constructor
        · rintro ⟨hx, hns⟩; exact ⟨Or.inr hx, hns⟩
        · rintro ⟨hx | hx, hns⟩
          · exact absurd (hx ▸ hu) hns
          · exact ⟨hx, hns⟩
      · rw [dedupSeen, if_neg hu]
        simp only [List.mem_cons, ih, List.mem_cons]
        constructor
        · rintro (hx | ⟨hx, hns⟩)
          · exact ⟨Or.inl hx, hx ▸ hu⟩
          · exact ⟨Or.inr hx, fun hs => hns (Or.inr hs)⟩
        · rintro ⟨hx | hx, hns⟩
          · exact Or.inl hx
          · by_cases hxu : x = u
            · exact Or.inl hxu
            · exact Or.inr ⟨hx, fun hs => by
                rcases hs with h1 | h1
                · exact hxu h1
                · exact hns h1⟩

/-- The dedup loop distributes over append, the seen set growing by the
elements of the first part. -/
theorem dedupSeen_append (a : List String) :
    ∀ (b : List String) s, dedupSeen s (a ++ b) = dedupSeen s a ++ dedupSeen (a ++ s) b := by
  induction a with
  | nil => intro b s; rfl
  | cons u a2 ih =>
      intro b s
      by_cases hu : u ∈ s
      · rw [List.cons_append, dedupSeen, if_pos hu, dedupSeen, if_pos hu, ih]
        have : ∀ x, x ∈ a2 ++ s ↔ x ∈ (u :: a2) ++ s := by
          intro x
          simp only [List.mem_append, List.mem_cons]
          constructor
          · rintro (h | h)
            · exact Or.inl (Or.inr h)
            · exact Or.inr h
          · rintro (h | h)
            · rcases h with h | h
              · exact Or.inr (h ▸ hu)
              · exact Or.inl h
            · exact Or.inr h
        rw [dedupSeen_congr b _ _ this]
      · rw [List.cons_append, dedupSeen, if_neg hu, dedupSeen, if_neg hu, ih]
        rw [List.cons_append]
        have : ∀ x, x ∈ a2 ++ u :: s ↔ x ∈ u :: a2 ++ s := by
          intro x
          simp only [List.mem_append, List.mem_cons]
          tauto
        rw [dedupSeen_congr b _ _ this]

/-- Deduplicating a deduplicated list folds the seen sets together. -/
theorem dedupSeen_dedupSeen (l : List String) :
    ∀ t s, dedupSeen s (dedupSeen t l) = dedupSeen (t ++ s) l := by
  induction l with
  | nil => intro t s; rfl
  | cons u rest ih =>
      intro t s
      by_cases hut : u ∈ t
      · rw [dedupSeen, if_pos hut, ih, dedupSeen,
          if_pos (List.mem_append.mpr (Or.inl hut))]
      · rw [dedupSeen, if_neg hut]
        by_cases hus : u ∈ s
        · rw [dedupSeen, if_pos hus, ih, dedupSeen,
            if_pos (List.mem_append.mpr (Or.inr hus))]
          have : ∀ x, x ∈ (u :: t) ++ s ↔ x ∈ t ++ s := by
            intro x
            simp only [List.mem_append, List.mem_cons]
            constructor
            · rintro (⟨h | h⟩ | h)
              · exact Or.inr (h ▸ hus)
              · exact Or.inl h
              · exact Or.inr h
            · rintro (h | h)
              · exact Or.inl (Or.inr h)
              · exact Or.inr h
          rw [dedupSeen_congr rest _ _ this]
        · have hu2 : u ∉ t ++ s := by
            intro h
            rcases List.mem_append.mp h with h | h
            · exact hut h
            · exact hus h
          rw [dedupSeen, if_neg hus, dedupSeen, if_neg hu2, ih]
          have : ∀ x, x ∈ (u :: t) ++ u :: s ↔ x ∈ u :: t ++ s := by
            intro x
            simp only [List.mem_append, List.mem_cons]
            tauto
          rw [dedupSeen_congr rest _ _ this]
          rfl

/-- The dedup result has no duplicates. -/
theorem nodup_dedupSeen (l : List String) : ∀ s, (dedupSeen s l).Nodup := by
  induction l with
  | nil => intro s; exact List.nodup_nil
  | cons u rest ih =>
      intro s
      by_cases hu : u ∈ s
      · rw [dedupSeen, if_pos hu]; exact ih s
      · rw [dedupSeen, if_neg hu]
        refine List.nodup_cons.mpr ⟨?_, ih (u :: s)⟩
        intro hmem
        exact ((mem_dedupSeen rest (u :: s) u).mp hmem).2 (List.mem_cons_self u s)

/-- The dedup loop computes exactly the first occurrences of the elements not
already seen. -/
theorem dedupSeen_firstOccurrences (l : List String) :
    ∀ s, dedupSeen s l = firstOccurrences (l.filter (fun x => decide (x ∉ s))) := by
  induction l with
  | nil => intro s; simp [dedupSeen, firstOccurrences]
  | cons u rest ih =>
      intro s
      by_cases hu : u ∈ s
      · rw [dedupSeen, if_pos hu, List.filter_cons, if_neg (by simpa using hu)]
        exact ih s
      · rw [dedupSeen, if_neg hu, List.filter_cons, if_pos (by simpa using hu)]
        rw [firstOccurrences, ih (u :: s), List.filter_filter]
        have hfe : List.filter (fun x => decide (x ∉ u :: s)) rest
            = List.filter (fun a => decide (a ≠ u) && decide (a ∉ s)) rest := by
          apply List.filter_congr
          intro x _
          by_cases hxu : x = u
          · simp [hxu, List.mem_cons]
          · by_cases hxs : x ∈ s <;> simp [hxu, hxs, List.mem_cons]
        rw [hfe]

/-- Per-city dedup followed by global dedup collapses to a single global
first-seen dedup of the concatenation. -/
theorem pipeline_collapse (cityLists : List (List String)) :
    ∀ s, dedupSeen s (cityLists.map get_datacenters_from_city).flatten
      = dedupSeen s cityLists.flatten := by
  induction cityLists with
  | nil => intro s; rfl
  | cons c rest ih =>
      intro s
      rw [List.map_cons, List.flatten_cons, List.flatten_cons,
        dedupSeen_append, dedupSeen_append]
      congr 1
      · show dedupSeen s (dedupSeen [] c) = dedupSeen s c
        rw [dedupSeen_dedupSeen]
        rfl
      · rw [ih]
        apply dedupSeen_congr
        intro x
        simp only [List.mem_append]
        constructor
        · rintro (h | h)
          · exact Or.inl ((mem_dedupSeen c [] x).mp h).1
          · exact Or.inr h
        · rintro (h | h)
          · exact Or.inl ((mem_dedupSeen c [] x).mpr ⟨h, List.not_mem_nil x⟩)
          · exact Or.inr h

/-- Claim C6: facility-URL discovery deduplicates globally by URL preserving
first-seen order — the output is exactly the first occurrences of the
concatenated per-city link lists (each later duplicate deleted, each URL kept
at the position of its first occurrence), every discovered URL appears
exactly once, and the two-sub-region example yields `[X, Y, Z]`. -/
theorem c6_discovery_dedup :
    (∀ cityLists : List (List String),
        get_texas_datacenter_urls cityLists = firstOccurrences cityLists.flatten) ∧
    (∀ (cityLists : List (List String)) (u : String),
        List.count u (get_texas_datacenter_urls cityLists)
          = if u ∈ cityLists.flatten then 1 else 0) ∧
    get_texas_datacenter_urls [["X", "Y"], ["Y", "Z"]] = ["X", "Y", "Z"] := by
  have hmain : ∀ cityLists : List (List String),
      get_texas_datacenter_urls cityLists = dedupSeen [] cityLists.flatten := by
    intro cls
    unfold get_texas_datacenter_urls dedupFirstSeen
    exact pipeline_collapse cls []
  refine ⟨?_, ?_, by decide⟩
  · intro cls
    rw [hmain cls, dedupSeen_firstOccurrences]
    congr 1
    rw [List.filter_eq_self]
    intro a _
    simp
  · intro cls u
    rw [hmain cls]
    by_cases hm : u ∈ cls.flatten
    · rw [if_pos hm]
      exact List.count_eq_one_of_mem (nodup_dedupSeen _ [])
        ((mem_dedupSeen _ [] u).mpr ⟨hm, List.not_mem_nil u⟩)
    · rw [if_neg hm]
      exact List.count_eq_zero.mpr (fun h => hm ((mem_dedupSeen _ [] u).mp h).1)

/-! ## C7 / C9: the re-scrape loop and quality triage -/

/-- One step of the re-scrape loop, phrased through the classification
predicate. -/
theorem rescrapeLoop_cons (res : String → Option FacilityData) (u : String)
    (rest : List String) :
    rescrapeLoop res (u :: rest) =
      if rescrapeFixed (res u) then
        (((res u).getD (initData "")) :: (rescrapeLoop res rest).1,
         (rescrapeLoop res rest).2)
      else ((rescrapeLoop res rest).1, u :: (rescrapeLoop res rest).2) := by
  cases hr : res u with
  | none => simp [rescrapeLoop, hr, rescrapeFixed]
  | some r =>
      cases hn : r.name with
      | none => simp [rescrapeLoop, hr, rescrapeFixed, hn]
      | some s =>
          by_cases hc : (decide (s ≠ "") && !rescrapePhraseBad s) = true
          · simp [rescrapeLoop, hr, rescrapeFixed, hn, hc]
          · simp only [Bool.not_eq_true] at hc
            simp [rescrapeLoop, hr, rescrapeFixed, hn, hc]

/-- A URL lands in the still-bad list exactly when it was processed and its
re-scrape outcome was not classified fixed. -/
theorem mem_stillBad (res : String → Option FacilityData) :
    ∀ (urls : List String) (u : String),
      u ∈ (rescrapeLoop res urls).2 ↔ u ∈ urls ∧ rescrapeFixed (res u) = false := by
  intro urls
  induction urls with
  | nil => intro u; simp [rescrapeLoop]
  | cons v rest ih =>
      intro u
      rw [rescrapeLoop_cons]
      by_cases hv : rescrapeFixed (res v) = true
      · rw [if_pos hv]
        simp only [List.mem_cons]
        rw [ih u]
        constructor
        · rintro ⟨hu, hf⟩; exact ⟨Or.inr hu, hf⟩
        · rintro ⟨hu | hu, hf⟩
          · rw [hu] at hf; rw [hf] at hv; exact absurd hv (by simp)
          · exact ⟨hu, hf⟩
      · rw [if_neg hv]
        simp only [Bool.not_eq_true] at hv
        simp only [List.mem_cons]
        rw [ih u]
        constructor
        · rintro (hu | ⟨hu, hf⟩)
          · exact ⟨Or.inl hu, hu ▸ hv⟩
          · exact ⟨Or.inr hu, hf⟩
        · rintro ⟨hu | hu, hf⟩
          · exact Or.inl hu
          · exact Or.inr ⟨hu, hf⟩

/-- Every fixed record came from some processed URL whose outcome it is, and
that outcome was classified fixed. -/
theorem mem_fixed (res : String → Option FacilityData) :
    ∀ (urls : List String) (r : FacilityData),
      r ∈ (rescrapeLoop res urls).1 →
      ∃ u, u ∈ urls ∧ res u = some r ∧ rescrapeFixed (res u) = true := by
  intro urls
  induction urls with
  | nil => intro r h; simp [rescrapeLoop] at h
  | cons v rest ih =>
      intro r h
      rw [rescrapeLoop_cons] at h
      by_cases hv : rescrapeFixed (res v) = true
      · rw [if_pos hv] at h
        rcases List.mem_cons.mp h with h1 | h1
        · refine ⟨v, List.mem_cons_self v rest, ?_, hv⟩
          cases hr : res v with
          | none => rw [hr] at hv; exact absurd hv (by simp [rescrapeFixed])
          | some r2 =>
              have h2 : r = r2 := by rw [hr] at h1; simpa using h1
              rw [h2]
        · obtain ⟨u, hu, hres, hf⟩ := ih r h1
          exact ⟨u, List.mem_cons_of_mem v hu, hres, hf⟩
      · rw [if_neg hv] at h
        obtain ⟨u, hu, hres, hf⟩ := ih r h
        exact ⟨u, List.mem_cons_of_mem v hu, hres, hf⟩

/-- Under url-stamped outcomes, the urls of the fixed records form a sublist
of the processed urls. -/
theorem fixedUrls_sublist (res : String → Option FacilityData)
    (hstamp : ∀ u r, res u = some r → r.url = u) :
    ∀ urls : List String,
      ((rescrapeLoop res urls).1.map (fun r => r.url)).Sublist urls := by
  intro urls
  induction urls with
  | nil => simp [rescrapeLoop]
  | cons v rest ih =>
      rw [rescrapeLoop_cons]
      by_cases hv : rescrapeFixed (res v) = true
      · rw [if_pos hv]
        cases hr : res v with
        | none => rw [hr] at hv; exact absurd hv (by simp [rescrapeFixed])
        | some r2 =>
            simp only [hr, Option.getD_some, List.map_cons]
            rw [hstamp v r2 hr]
            exact List.Sublist.cons₂ v ih
      · rw [if_neg hv]
        exact List.Sublist.cons v ih

/-- A list whose keys are distinct is unchanged by keep-last
deduplication. -/
theorem dedupKeepLast_eq_self :
    ∀ l : List FacilityData, (l.map (fun r => r.url)).Nodup → dedupKeepLast l = l := by
  intro l
  induction l with
  | nil => intro _; rfl
  | cons r rest ih =>
      intro hnd
      rw [List.map_cons, List.nodup_cons] at hnd
      have hany : rest.any (fun x => decide (x.url = r.url)) = false := by
        rw [List.any_eq_false]
        intro x hx
        simp only [decide_eq_true_eq]
        intro heq
        exact hnd.1 (heq ▸ List.mem_map_of_mem (fun r2 => r2.url) hx)
      rw [dedupKeepLast, if_neg (by rw [hany]; exact Bool.false_ne_true), ih hnd.2]

/-- Keep-last deduplication only removes rows. -/
theorem dedupKeepLast_subset :
    ∀ (l : List FacilityData) (r : FacilityData), r ∈ dedupKeepLast l → r ∈ l := by
  intro l
  induction l with
  | nil => intro r h; exact absurd h (by simp [dedupKeepLast])
  | cons x rest ih =>
      intro r h
      rw [dedupKeepLast] at h
      by_cases hx : rest.any (fun y => decide (y.url = x.url)) = true
      · rw [if_pos hx] at h
        exact List.mem_cons_of_mem x (ih r h)
      · rw [if_neg hx] at h
        rcases List.mem_cons.mp h with h1 | h1
        · exact h1 ▸ List.mem_cons_self x rest
        · exact List.mem_cons_of_mem x (ih r h1)

/-- Claim C7 (counterexample): a re-scraped name matching the triage
placeholder phrase `you're in the right` (but neither `full capacity` nor
`right place`) is classified FIXED by the loop, although it still matches the
placeholder phrases of the triage — so "fixed only if the name does not match
the placeholder phrases again" is false for the triage phrase set. -/
theorem c7_counterexample :
    nameMatchesError (some c7TrapName) = true ∧
    rescrapeFixed (some c7TrapRec) = true ∧
    rescrapeLoop c7TrapRes ["https://example.com/dc1/"] = ([c7TrapRec], []) := by
  refine ⟨by decide, by decide, ?_⟩
  rfl

/-- Claim C7 (amended): a re-scraped result is classified fixed iff it yields
a non-empty name containing neither `full capacity` nor `right place`
(case-insensitively) — the single-pass re-check does not re-test the third
triage phrase; every other outcome (fetch failure, missing or empty name, or
one of those two phrases) puts the URL in the still-bad list; and still-bad
URLs are excluded from the corrected dataset (given a dataset with unique
URLs and url-stamped re-scrape outcomes), with no further retry. -/
theorem c7_rescrape_classification :
    (∀ o : Option FacilityData,
        rescrapeFixed o = true ↔
          ∃ r s, o = some r ∧ r.name = some s ∧ s ≠ "" ∧ rescrapePhraseBad s = false) ∧
    (∀ (res : String → Option FacilityData) (urls : List String) (u : String),
        u ∈ (rescrapeLoop res urls).2 ↔ u ∈ urls ∧ rescrapeFixed (res u) = false) ∧
    (∀ (rows : List FacilityData) (res : String → Option FacilityData)
        (combined : List FacilityData) (sb : List String),
        (rows.map (fun r => r.url)).Nodup →
        (∀ u r, res u = some r → r.url = u) →
        rescrape_bad_urls rows res = (some combined, sb) →
        ∀ u ∈ sb, ∀ r ∈ combined, r.url ≠ u) := by
  refine ⟨?_, fun res urls u => mem_stillBad res urls u, ?_⟩
  · intro o
    cases o with
    | none => simp [rescrapeFixed]
    | some r =>
        cases hn : r.name with
        | none => simp [rescrapeFixed, hn]
        | some s =>
            simp only [rescrapeFixed, hn, Bool.and_eq_true, decide_eq_true_eq,
              Bool.not_eq_true']
            constructor
            · rintro ⟨h1, h2⟩; exact ⟨r, s, rfl, hn, h1, h2⟩
            · rintro ⟨r2, s2, hr2, hn2, h1, h2⟩
              cases hr2
              rw [hn] at hn2
              cases hn2
              exact ⟨h1, h2⟩
  · intro rows res combined sb hnd hstamp heq u husb r hrc
    simp only [rescrape_bad_urls] at heq
    split at heq
    · exact absurd (congrArg Prod.fst heq) (by simp)
    · have hcomb : combined
          = dedupKeepLast ((rows.filter (fun r => !nameMatchesError r.name))
            ++ (rescrapeLoop res ((rows.filter (fun r => nameMatchesError r.name)).map
                  (fun r => r.url))).1) := by
        have := congrArg Prod.fst heq
        simp only at this
        exact (Option.some.inj this).symm
      have hsb : sb
          = (rescrapeLoop res ((rows.filter (fun r => nameMatchesError r.name)).map
              (fun r => r.url))).2 := by
        have := congrArg Prod.snd heq
        simpa using this.symm
      set badUrls := (rows.filter (fun r => nameMatchesError r.name)).map (fun r => r.url)
        with hbu
      rw [hsb] at husb
      obtain ⟨huBad, huNotFixed⟩ := (mem_stillBad res badUrls u).mp husb
      rw [hcomb] at hrc
      have hrc2 := dedupKeepLast_subset _ r hrc
      intro hru
      rcases List.mem_append.mp hrc2 with hg | hf
      · -- r is a good row sharing its url with a bad row: impossible with unique urls
        obtain ⟨b, hbmem, hburl⟩ := List.mem_map.mp (hbu ▸ huBad)
        have hbrows : b ∈ rows := (List.mem_filter.mp hbmem).1
        have hgrows : r ∈ rows := (List.mem_filter.mp hg).1
        have hrb : r = b := List.inj_on_of_nodup_map hnd hgrows hbrows (by rw [hru, hburl])
        have h1 : nameMatchesError b.name = true := (List.mem_filter.mp hbmem).2
        have h2 : (!nameMatchesError r.name) = true := (List.mem_filter.mp hg).2
        rw [hrb, h1] at h2
        exact absurd h2 (by simp)
      · -- r is a fixed record: its url's outcome was classified fixed,
        -- contradicting u being still bad
        obtain ⟨u2, _, hres, hfix⟩ := mem_fixed res badUrls r hf
        have : u2 = u := by rw [← hstamp u2 r hres, hru]
        rw [this, huNotFixed] at hfix
        exact absurd hfix (by simp)

/-- Witness for `c7_rescrape_classification`: a three-row dataset where the
re-scrape fixes one bad row and leaves the other still bad; the still-bad URL
is absent from the corrected dataset. -/
theorem c7_rescrape_classification_witness :
    (c7wRows.map (fun r => r.url)).Nodup ∧
    rescrape_bad_urls c7wRows c7wRes
      = (some [c7wGood, { url := "u1", name := some "Beta DC" }], ["u2"]) ∧
    c7wGood.url ≠ "u2" := by
  have hnd : (c7wRows.map (fun r => r.url)).Nodup := by decide
  have hstamp : ∀ u r, c7wRes u = some r → r.url = u := by
    intro u r h
    simp only [c7wRes] at h
    split at h
    · cases h; simp_all
    · split at h
      · cases h; simp_all
      · cases h
  have heq : rescrape_bad_urls c7wRows c7wRes
      = (some [c7wGood, { url := "u1", name := some "Beta DC" }], ["u2"]) := by decide
  refine ⟨hnd, heq, ?_⟩
  exact (c7_rescrape_classification.2.2 c7wRows c7wRes
      [c7wGood, { url := "u1", name := some "Beta DC" }] ["u2"] hnd hstamp heq)
    "u2" (by decide) c7wGood (by decide)

/-- Claim C9: a dataset row with a missing name is classified good by the
triage (the phrase match treats missing names as non-matching), its URL is
never fed to the re-scrape loop, and — given unique dataset URLs and
url-stamped re-scrape outcomes — it is carried unchanged into the corrected
clean dataset whenever that dataset is written. -/
theorem c9_missing_name_is_good (rows : List FacilityData)
    (res : String → Option FacilityData) (combined : List FacilityData)
    (sb : List String) (row : FacilityData)
    (hnd : (rows.map (fun r => r.url)).Nodup)
    (hstamp : ∀ u r, res u = some r → r.url = u)
    (heq : rescrape_bad_urls rows res = (some combined, sb))
    (hmem : row ∈ rows) (hname : row.name = none) :
    nameMatchesError row.name = false ∧
    row.url ∉ (rows.filter (fun r => nameMatchesError r.name)).map (fun r => r.url) ∧
    row ∈ combined := by
  have hgoodrow : nameMatchesError row.name = false := by rw [hname]; rfl
  have hnotbad : row.url ∉ (rows.filter (fun r => nameMatchesError r.name)).map
      (fun r => r.url) := by
    intro h
    obtain ⟨b, hbmem, hburl⟩ := List.mem_map.mp h
    have hbrows : b ∈ rows := (List.mem_filter.mp hbmem).1
    have hrb : row = b := List.inj_on_of_nodup_map hnd hmem hbrows hburl.symm
    have h1 : nameMatchesError b.name = true := (List.mem_filter.mp hbmem).2
    rw [← hrb, hgoodrow] at h1
    exact absurd h1 (by simp)
  refine ⟨hgoodrow, hnotbad, ?_⟩
  simp only [rescrape_bad_urls] at heq
  split at heq
  · exact absurd (congrArg Prod.fst heq) (by simp)
  · have hcomb : combined
        = dedupKeepLast ((rows.filter (fun r => !nameMatchesError r.name))
          ++ (rescrapeLoop res ((rows.filter (fun r => nameMatchesError r.name)).map
                (fun r => r.url))).1) := by
      have := congrArg Prod.fst heq
      simp only at this
      exact (Option.some.inj this).symm
    set good := rows.filter (fun r => !nameMatchesError r.name) with hgood
    set badUrls := (rows.filter (fun r => nameMatchesError r.name)).map (fun r => r.url)
      with hbu
    set fixed := (rescrapeLoop res badUrls).1 with hfix
    -- unique keys across good ++ fixed
    have hgoodnd : (good.map (fun r => r.url)).Nodup :=
      ((List.filter_sublist rows).map (fun r => r.url)).nodup hnd
    have hbadnd : badUrls.Nodup :=
      ((List.filter_sublist rows).map (fun r => r.url)).nodup hnd
    have hfixsub : (fixed.map (fun r => r.url)).Sublist badUrls :=
      fixedUrls_sublist res hstamp badUrls
    have hfixnd : (fixed.map (fun r => r.url)).Nodup := hfixsub.nodup hbadnd
    have hdisj : (good.map (fun r => r.url)).Disjoint (fixed.map (fun r => r.url)) := by
      intro x hxg hxf
      have hxbad : x ∈ badUrls := hfixsub.subset hxf
      obtain ⟨g, hgmem, hgurl⟩ := List.mem_map.mp hxg
      obtain ⟨b, hbmem, hburl⟩ := List.mem_map.mp hxbad
      have hgrows : g ∈ rows := (List.mem_filter.mp hgmem).1
      have hbrows : b ∈ rows := (List.mem_filter.mp hbmem).1
      have hgb : g = b := List.inj_on_of_nodup_map hnd hgrows hbrows
        (by rw [hgurl, hburl])
      have h1 : nameMatchesError b.name = true := (List.mem_filter.mp hbmem).2
      have h2 : (!nameMatchesError g.name) = true := (List.mem_filter.mp hgmem).2
      rw [hgb, h1] at h2
      exact absurd h2 (by simp)
    have hallnd : ((good ++ fixed).map (fun r => r.url)).Nodup := by
      rw [List.map_append, List.nodup_append]
      exact ⟨hgoodnd, hfixnd, hdisj⟩
    rw [hcomb, dedupKeepLast_eq_self _ hallnd]
    apply List.mem_append.mpr
    left
    rw [hgood]
    exact List.mem_filter.mpr ⟨hmem, by rw [hgoodrow]; rfl⟩

/-- Witness for `c9_missing_name_is_good`: a two-row dataset whose first row
has no name; the re-scrape fixes the other row and the nameless row survives
into the corrected dataset. -/
theorem c9_missing_name_is_good_witness :
    (c9wRows.map (fun r => r.url)).Nodup ∧
    rescrape_bad_urls c9wRows c7wRes
      = (some [c9wNone, { url := "u1", name := some "Beta DC" }], []) ∧
    (nameMatchesError c9wNone.name = false ∧
     c9wNone.url ∉ (c9wRows.filter (fun r => nameMatchesError r.name)).map
        (fun r => r.url) ∧
     c9wNone ∈ [c9wNone, { url := "u1", name := some "Beta DC" }]) := by
  have hnd : (c9wRows.map (fun r => r.url)).Nodup := by decide
  have hstamp : ∀ u r, c7wRes u = some r → r.url = u := by
    intro u r h
    simp only [c7wRes] at h
    split at h
    · cases h; simp_all
    · split at h
      · cases h; simp_all
      · cases h
  have heq : rescrape_bad_urls c9wRows c7wRes
      = (some [c9wNone, { url := "u1", name := some "Beta DC" }], []) := by decide
  exact ⟨hnd, heq,
    c9_missing_name_is_good c9wRows c7wRes
      [c9wNone, { url := "u1", name := some "Beta DC" }] [] c9wNone
      hnd hstamp heq (by decide) rfl⟩

/-! ## C1 / C10: stage-by-stage preservation lemmas for the extractor -/

/-- The power step either leaves the record alone or fills a Python-falsy
power field. -/
theorem applyPowerRe_shape (t : List Char) (r : FacilityData) :
    applyPowerRe t r = r ∨
      (optRatFalsy r.power_capacity_mw = true ∧
        ∃ q, applyPowerRe t r = { r with power_capacity_mw := some q }) := by
  unfold applyPowerRe
  by_cases h : optRatFalsy r.power_capacity_mw = true
  · rw [if_pos h]
    cases hf : findPower t with
    | none => exact Or.inl rfl
    | some q => exact Or.inr ⟨h, q, rfl⟩
  · rw [if_neg h]
    exact Or.inl rfl

/-- The building step, when it returns, either leaves the record alone or
fills a Python-falsy building field. -/
theorem applyBuildingRe_ok {t : List Char} {r r' : FacilityData}
    (h : applyBuildingRe t r = .ok r') :
    r' = r ∨
      (optIntFalsy r.building_size_sqft = true ∧
        ∃ n, r' = { r with building_size_sqft := some n }) := by
  unfold applyBuildingRe at h
  by_cases hg : optIntFalsy r.building_size_sqft = true
  · rw [if_pos hg] at h
    cases hf : findSizeGroup t with
    | none => rw [hf] at h; exact Or.inl (Except.ok.inj h).symm
    | some g =>
        simp only [hf] at h
        by_cases he : (g.filter (fun c => c != ',')).isEmpty = true
        · rw [if_pos he] at h; exact absurd h (by simp)
        · rw [if_neg he] at h
          exact Or.inr ⟨hg, _, (Except.ok.inj h).symm⟩
  · rw [if_neg hg] at h
    exact Or.inl (Except.ok.inj h).symm

/-- The whitespace step, when it returns, either leaves the record alone or
fills a Python-falsy whitespace field. -/
theorem applyWsRe_ok {t : List Char} {r r' : FacilityData}
    (h : applyWsRe t r = .ok r') :
    r' = r ∨
      (optIntFalsy r.whitespace_sqft = true ∧
        ∃ n, r' = { r with whitespace_sqft := some n }) := by
  unfold applyWsRe at h
  by_cases hg : optIntFalsy r.whitespace_sqft = true
  · rw [if_pos hg] at h
    cases hf : findWsGroup t with
    | none => rw [hf] at h; exact Or.inl (Except.ok.inj h).symm
    | some g =>
        simp only [hf] at h
        by_cases he : (g.filter (fun c => c != ',')).isEmpty = true
        · rw [if_pos he] at h; exact absurd h (by simp)
        · rw [if_neg he] at h
          exact Or.inr ⟨hg, _, (Except.ok.inj h).symm⟩
  · rw [if_neg hg] at h
    exact Or.inl (Except.ok.inj h).symm

/-- The tier step either leaves the record alone or fills a Python-falsy
tier field with the uppercased matched group. -/
theorem applyTierRe_shape (t : List Char) (r : FacilityData) :
    applyTierRe t r = r ∨
      (optStrFalsy r.tier_rating = true ∧
        ∃ g, findTierGroup t = some g ∧
          applyTierRe t r = { r with tier_rating := some (upperStr (String.mk g)) }) := by
  unfold applyTierRe
  by_cases h : optStrFalsy r.tier_rating = true
  · rw [if_pos h]
    cases hf : findTierGroup t with
    | none => exact Or.inl rfl
    | some g => exact Or.inr ⟨h, g, rfl, rfl⟩
  · rw [if_neg h]
    exact Or.inl rfl

/-- The year step either leaves the record alone or fills a Python-falsy
year field. -/
theorem applyYearRe_shape (t : List Char) (r : FacilityData) :
    applyYearRe t r = r ∨
      (optIntFalsy r.year_operational = true ∧
        ∃ c, applyYearRe t r = { r with year_operational := some ((c : Nat) : Int) }) := by
  unfold applyYearRe
  by_cases h : optIntFalsy r.year_operational = true
  · rw [if_pos h]
    cases hf : findYearGroup t with
    | none => exact Or.inl rfl
    | some c => exact Or.inr ⟨h, c, rfl⟩
  · rw [if_neg h]
    exact Or.inl rfl

/-- `SpecMono` is reflexive. -/
theorem specMono_refl (r : FacilityData) : SpecMono r r := by
  unfold SpecMono SpecUntouched
  exact ⟨⟨rfl, rfl, rfl, rfl, rfl, rfl, rfl, rfl, rfl, rfl, rfl, rfl⟩,
    fun _ => rfl, fun _ => rfl, fun _ => rfl, fun _ => rfl, fun _ => rfl⟩

/-- `SpecMono` composes. -/
theorem specMono_trans {a b c : FacilityData}
    (h1 : SpecMono a b) (h2 : SpecMono b c) : SpecMono a c := by
  obtain ⟨⟨u1, u2, u3, u4, u5, u6, u7, u8, u9, u10, u11, u12⟩, p1, p2, p3, p4, p5⟩ := h1
  obtain ⟨⟨v1, v2, v3, v4, v5, v6, v7, v8, v9, v10, v11, v12⟩, q1, q2, q3, q4, q5⟩ := h2
  refine ⟨⟨v1.trans u1, v2.trans u2, v3.trans u3, v4.trans u4, v5.trans u5,
    v6.trans u6, v7.trans u7, v8.trans u8, v9.trans u9, v10.trans u10,
    v11.trans u11, v12.trans u12⟩, ?_, ?_, ?_, ?_, ?_⟩
  · intro h
    have hb := p1 h
    exact (q1 (by rw [hb]; exact h)).trans hb
  · intro h
    have hb := p2 h
    exact (q2 (by rw [hb]; exact h)).trans hb
  · intro h
    have hb := p3 h
    exact (q3 (by rw [hb]; exact h)).trans hb
  · intro h
    have hb := p4 h
    exact (q4 (by rw [hb]; exact h)).trans hb
  · intro h
    have hb := p5 h
    exact (q5 (by rw [hb]; exact h)).trans hb

/-- One tier-4 element step satisfies the monotonicity contract. -/
theorem applySpecText_mono {r r' : FacilityData} {t : String}
    (h : applySpecText r t = .ok r') : SpecMono r r' := by
  set tl := (lowerStr t).data with htl
  have hstep : applySpecText r t =
      (match applyBuildingRe tl (applyPowerRe tl r) with
       | .error e => .error e
       | .ok r2 =>
          match applyWsRe tl r2 with
          | .error e => .error e
          | .ok r3 => .ok (applyYearRe tl (applyTierRe tl r3))) := rfl
  rw [hstep] at h
  have m1 : SpecMono r (applyPowerRe tl r) := by
    rcases applyPowerRe_shape tl r with hs | ⟨hg, q, hs⟩
    · rw [hs]; exact specMono_refl r
    · rw [hs]
      refine ⟨⟨rfl, rfl, rfl, rfl, rfl, rfl, rfl, rfl, rfl, rfl, rfl, rfl⟩,
        ?_, fun _ => rfl, fun _ => rfl, fun _ => rfl, fun _ => rfl⟩
      intro hfalse
      rw [hg] at hfalse
      exact absurd hfalse (by simp)
  cases hb : applyBuildingRe tl (applyPowerRe tl r) with
  | error e => simp only [hb] at h; exact absurd h (by simp)
  | ok r2 =>
      simp only [hb] at h
      have m2 : SpecMono (applyPowerRe tl r) r2 := by
        rcases applyBuildingRe_ok hb with hs | ⟨hg, n, hs⟩
        · rw [hs]; exact specMono_refl _
        · rw [hs]
          refine ⟨⟨rfl, rfl, rfl, rfl, rfl, rfl, rfl, rfl, rfl, rfl, rfl, rfl⟩,
            fun _ => rfl, ?_, fun _ => rfl, fun _ => rfl, fun _ => rfl⟩
          intro hfalse
          rw [hg] at hfalse
          exact absurd hfalse (by simp)
      cases hw : applyWsRe tl r2 with
      | error e => simp only [hw] at h; exact absurd h (by simp)
      | ok r3 =>
          simp only [hw] at h
          have m3 : SpecMono r2 r3 := by
            rcases applyWsRe_ok hw with hs | ⟨hg, n, hs⟩
            · rw [hs]; exact specMono_refl _
            · rw [hs]
              refine ⟨⟨rfl, rfl, rfl, rfl, rfl, rfl, rfl, rfl, rfl, rfl, rfl, rfl⟩,
                fun _ => rfl, fun _ => rfl, ?_, fun _ => rfl, fun _ => rfl⟩
              intro hfalse
              rw [hg] at hfalse
              exact absurd hfalse (by simp)
          have hr' : r' = applyYearRe tl (applyTierRe tl r3) := (Except.ok.inj h).symm
          have m4 : SpecMono r3 (applyTierRe tl r3) := by
            rcases applyTierRe_shape tl r3 with hs | ⟨hg, g, _, hs⟩
            · rw [hs]; exact specMono_refl _
            · rw [hs]
              refine ⟨⟨rfl, rfl, rfl, rfl, rfl, rfl, rfl, rfl, rfl, rfl, rfl, rfl⟩,
                fun _ => rfl, fun _ => rfl, fun _ => rfl, ?_, fun _ => rfl⟩
              intro hfalse
              rw [hg] at hfalse
              exact absurd hfalse (by simp)
          have m5 : SpecMono (applyTierRe tl r3) r' := by
            rw [hr']
            rcases applyYearRe_shape tl (applyTierRe tl r3) with hs | ⟨hg, c, hs⟩
            · rw [hs]; exact specMono_refl _
            · rw [hs]
              refine ⟨⟨rfl, rfl, rfl, rfl, rfl, rfl, rfl, rfl, rfl, rfl, rfl, rfl⟩,
                fun _ => rfl, fun _ => rfl, fun _ => rfl, fun _ => rfl, ?_⟩
              intro hfalse
              rw [hg] at hfalse
              exact absurd hfalse (by simp)
          exact specMono_trans (specMono_trans (specMono_trans (specMono_trans m1 m2) m3) m4) m5

/-- The whole tier-4 loop satisfies the monotonicity contract. -/
theorem specLoop_mono :
    ∀ (texts : List String) (r r' : FacilityData),
      specLoop r texts = .ok r' → SpecMono r r' := by
  intro texts
  induction texts with
  | nil =>
      intro r r' h
      rw [show r' = r from (Except.ok.inj h).symm]
      exact specMono_refl r
  | cons t rest ih =>
      intro r r' h
      simp only [specLoop] at h
      cases ha : applySpecText r t with
      | error e => simp only [ha] at h; exact absurd h (by simp)
      | ok r2 =>
          simp only [ha] at h
          exact specMono_trans (applySpecText_mono ha) (ih r2 r' h)

/-- The tier-2 name stage either leaves the record alone or writes only the
name. -/
theorem htmlNameStage_shape (d : Doc) (r : FacilityData) :
    htmlNameStage d r = r ∨ ∃ t, htmlNameStage d r = { r with name := some t } := by
  unfold htmlNameStage
  by_cases h : optStrFalsy r.name = true
  · rw [if_pos h]
    cases hp : pickName d name_selectors with
    | none => exact Or.inl rfl
    | some t => exact Or.inr ⟨t, rfl⟩
  · rw [if_neg h]
    exact Or.inl rfl

/-- A truthy name short-circuits the tier-2 name stage. -/
theorem htmlNameStage_skip (d : Doc) (r : FacilityData)
    (h : optStrFalsy r.name = false) : htmlNameStage d r = r := by
  simp [htmlNameStage, h]

/-- The tier-2 operator stage either leaves the record alone or writes only
the operator. -/
theorem htmlOperatorStage_shape (d : Doc) (r : FacilityData) :
    htmlOperatorStage d r = r ∨
      ∃ t, htmlOperatorStage d r = { r with operator := some t } := by
  unfold htmlOperatorStage
  by_cases h : optStrFalsy r.operator = true
  · rw [if_pos h]
    cases hp : pickOperator d operator_selectors with
    | none => exact Or.inl rfl
    | some t => exact Or.inr ⟨t, rfl⟩
  · rw [if_neg h]
    exact Or.inl rfl

/-- A truthy operator short-circuits the tier-2 operator stage. -/
theorem htmlOperatorStage_skip (d : Doc) (r : FacilityData)
    (h : optStrFalsy r.operator = false) : htmlOperatorStage d r = r := by
  simp [htmlOperatorStage, h]

/-- The script scan either leaves the record alone or writes exactly one
in-bounds latitude/longitude pair. -/
theorem scanScripts_shape :
    ∀ (ts : List String) (r : FacilityData),
      scanScripts r ts = r ∨
        ∃ la lo, scanScripts r ts = { r with latitude := some la, longitude := some lo } := by
  intro ts
  induction ts with
  | nil => intro r; exact Or.inl rfl
  | cons s rest ih =>
      intro r
      simp only [scanScripts]
      split
      · split
        · exact Or.inr ⟨_, _, rfl⟩
        · exact ih r
      · exact ih r

/-- Tier-3 method 1 leaves the record alone, or writes the latitude, or
writes both coordinates. -/
theorem coordMethod1_shape (d : Doc) (r : FacilityData) :
    coordMethod1 d r = r ∨
      (∃ la, coordMethod1 d r = { r with latitude := some la }) ∨
      (∃ la lo, coordMethod1 d r = { r with latitude := some la, longitude := some lo }) := by
  unfold coordMethod1
  split
  · split
    · split
      · split
        · split
          · exact Or.inr (Or.inr ⟨_, _, rfl⟩)
          · exact Or.inr (Or.inl ⟨_, rfl⟩)
        · exact Or.inl rfl
      · exact Or.inl rfl
    · exact Or.inl rfl
  · exact Or.inl rfl

/-- Tier-3 method 2 leaves the record alone, or writes the latitude, or
writes both coordinates. -/
theorem coordMethod2_shape (d : Doc) (r : FacilityData) :
    coordMethod2 d r = r ∨
      (∃ la, coordMethod2 d r = { r with latitude := some la }) ∨
      (∃ la lo, coordMethod2 d r = { r with latitude := some la, longitude := some lo }) := by
  unfold coordMethod2
  split
  · split
    · split
      · split
        · exact Or.inr (Or.inr ⟨_, _, rfl⟩)
        · exact Or.inr (Or.inl ⟨_, rfl⟩)
      · exact Or.inl rfl
    · exact Or.inl rfl
  · exact Or.inl rfl

/-- Tier-3 method 3 leaves the record alone or writes both coordinates. -/
theorem coordMethod3_shape (d : Doc) (r : FacilityData) :
    coordMethod3 d r = r ∨
      ∃ la lo, coordMethod3 d r = { r with latitude := some la, longitude := some lo } := by
  unfold coordMethod3
  by_cases h : optRatFalsy r.latitude = true
  · rw [if_pos h]
    exact scanScripts_shape d.scriptTexts r
  · rw [if_neg h]
    exact Or.inl rfl

/-- A truthy latitude short-circuits all three coordinate methods. -/
theorem coordStage_skip (d : Doc) (r : FacilityData)
    (h : optRatFalsy r.latitude = false) : coordStage d r = r := by
  unfold coordStage
  have h1 : coordMethod1 d r = r := by simp [coordMethod1, h]
  rw [h1]
  have h2 : coordMethod2 d r = r := by simp [coordMethod2, h]
  rw [h2]
  simp [coordMethod3, h]

/-- The coordinate stage never touches any field other than latitude and
longitude. -/
theorem coordStage_fields (d : Doc) (r : FacilityData) :
    (coordStage d r).url = r.url ∧ (coordStage d r).name = r.name ∧
    (coordStage d r).operator = r.operator ∧ (coordStage d r).address = r.address ∧
    (coordStage d r).city = r.city ∧ (coordStage d r).state = r.state ∧
    (coordStage d r).country = r.country ∧ (coordStage d r).postal_code = r.postal_code ∧
    (coordStage d r).power_capacity_mw = r.power_capacity_mw ∧
    (coordStage d r).building_size_sqft = r.building_size_sqft ∧
    (coordStage d r).whitespace_sqft = r.whitespace_sqft ∧
    (coordStage d r).tier_rating = r.tier_rating ∧
    (coordStage d r).year_operational = r.year_operational ∧
    (coordStage d r).certifications = r.certifications ∧
    (coordStage d r).description = r.description := by
  have h3 := coordMethod3_shape d (coordMethod2 d (coordMethod1 d r))
  have h2 := coordMethod2_shape d (coordMethod1 d r)
  have h1 := coordMethod1_shape d r
  unfold coordStage
  rcases h3 with h3 | ⟨la3, lo3, h3⟩ <;> rw [h3] <;>
    (rcases h2 with h2 | ⟨la2, h2⟩ | ⟨la2, lo2, h2⟩ <;> rw [h2] <;>
      (rcases h1 with h1 | ⟨la1, h1⟩ | ⟨la1, lo1, h1⟩ <;> rw [h1] <;>
        exact ⟨rfl, rfl, rfl, rfl, rfl, rfl, rfl, rfl, rfl, rfl, rfl, rfl, rfl, rfl, rfl⟩))

/-- The certification stage only appends to certifications. -/
theorem certStage_fields (d : Doc) (r : FacilityData) :
    certStage d r = { r with certifications := (certStage d r).certifications } := rfl

/-- The description stage only writes the description. -/
theorem descStage_fields (d : Doc) (r : FacilityData) :
    descStage d r = { r with description := (descStage d r).description } := by
  unfold descStage
  cases h : pickDesc d desc_selectors with
  | none => rfl
  | some t => rfl

/-- The tier-2 name stage never touches any field other than the name. -/
theorem htmlNameStage_fields (d : Doc) (a : FacilityData) :
    (htmlNameStage d a).url = a.url ∧ (htmlNameStage d a).operator = a.operator ∧
    (htmlNameStage d a).address = a.address ∧ (htmlNameStage d a).city = a.city ∧
    (htmlNameStage d a).state = a.state ∧ (htmlNameStage d a).country = a.country ∧
    (htmlNameStage d a).postal_code = a.postal_code ∧
    (htmlNameStage d a).latitude = a.latitude ∧ (htmlNameStage d a).longitude = a.longitude ∧
    (htmlNameStage d a).power_capacity_mw = a.power_capacity_mw ∧
    (htmlNameStage d a).building_size_sqft = a.building_size_sqft ∧
    (htmlNameStage d a).whitespace_sqft = a.whitespace_sqft ∧
    (htmlNameStage d a).tier_rating = a.tier_rating ∧
    (htmlNameStage d a).year_operational = a.year_operational ∧
    (htmlNameStage d a).certifications = a.certifications ∧
    (htmlNameStage d a).description = a.description := by
  rcases htmlNameStage_shape d a with h | ⟨t, h⟩ <;> rw [h] <;>
    exact ⟨rfl, rfl, rfl, rfl, rfl, rfl, rfl, rfl, rfl, rfl, rfl, rfl, rfl, rfl, rfl, rfl⟩

/-- The tier-2 operator stage never touches any field other than the
operator. -/
theorem htmlOperatorStage_fields (d : Doc) (a : FacilityData) :
    (htmlOperatorStage d a).url = a.url ∧ (htmlOperatorStage d a).name = a.name ∧
    (htmlOperatorStage d a).address = a.address ∧ (htmlOperatorStage d a).city = a.city ∧
    (htmlOperatorStage d a).state = a.state ∧ (htmlOperatorStage d a).country = a.country ∧
    (htmlOperatorStage d a).postal_code = a.postal_code ∧
    (htmlOperatorStage d a).latitude = a.latitude ∧
    (htmlOperatorStage d a).longitude = a.longitude ∧
    (htmlOperatorStage d a).power_capacity_mw = a.power_capacity_mw ∧
    (htmlOperatorStage d a).building_size_sqft = a.building_size_sqft ∧
    (htmlOperatorStage d a).whitespace_sqft = a.whitespace_sqft ∧
    (htmlOperatorStage d a).tier_rating = a.tier_rating ∧
    (htmlOperatorStage d a).year_operational = a.year_operational ∧
    (htmlOperatorStage d a).certifications = a.certifications ∧
    (htmlOperatorStage d a).description = a.description := by
  rcases htmlOperatorStage_shape d a with h | ⟨t, h⟩ <;> rw [h] <;>
    exact ⟨rfl, rfl, rfl, rfl, rfl, rfl, rfl, rfl, rfl, rfl, rfl, rfl, rfl, rfl, rfl, rfl⟩

/-- The certification and description stages never touch the extraction
fields. -/
theorem certDesc_fields (d : Doc) (a : FacilityData) :
    (descStage d (certStage d a)).url = a.url ∧
    (descStage d (certStage d a)).name = a.name ∧
    (descStage d (certStage d a)).operator = a.operator ∧
    (descStage d (certStage d a)).address = a.address ∧
    (descStage d (certStage d a)).city = a.city ∧
    (descStage d (certStage d a)).state = a.state ∧
    (descStage d (certStage d a)).country = a.country ∧
    (descStage d (certStage d a)).postal_code = a.postal_code ∧
    (descStage d (certStage d a)).latitude = a.latitude ∧
    (descStage d (certStage d a)).longitude = a.longitude ∧
    (descStage d (certStage d a)).power_capacity_mw = a.power_capacity_mw ∧
    (descStage d (certStage d a)).building_size_sqft = a.building_size_sqft ∧
    (descStage d (certStage d a)).whitespace_sqft = a.whitespace_sqft ∧
    (descStage d (certStage d a)).tier_rating = a.tier_rating ∧
    (descStage d (certStage d a)).year_operational = a.year_operational := by
  rw [descStage_fields]
  exact ⟨rfl, rfl, rfl, rfl, rfl, rfl, rfl, rfl, rfl, rfl, rfl, rfl, rfl, rfl, rfl⟩

/-- Claim C1 (amended): once a field holds a Python-truthy (non-zero,
non-empty) value when the post-tier-1 stages begin, those stages never change
it — with one exception: a set longitude is only guaranteed to survive when
the latitude is also truthy-set (the tier-3 fallbacks, guarded solely on
latitude, overwrite both coordinates).  Fields never written after tier 1
(url, city, postal_code, address, state, country) pass through unchanged; the
tier-4 loop never touches name, operator or the coordinates; the coordinate
stage never touches name or operator; the certification and description
stages write only their own fields.  A field holding a zero/empty value is
treated as unset by the `if not data[...]` guards and may be overwritten. -/
theorem c1_truthy_fields_never_overridden (d : Doc) (r1 r : FacilityData)
    (hok : laterStages d r1 = .ok r) :
    (∀ s, r1.name = some s → s ≠ "" → r.name = some s) ∧
    (∀ s, r1.operator = some s → s ≠ "" → r.operator = some s) ∧
    (∀ q, r1.latitude = some q → q ≠ 0 → r.latitude = some q) ∧
    (∀ la lo, r1.latitude = some la → la ≠ 0 → r1.longitude = some lo →
        r.longitude = some lo) ∧
    (∀ q, r1.power_capacity_mw = some q → q ≠ 0 → r.power_capacity_mw = some q) ∧
    (∀ n, r1.building_size_sqft = some n → n ≠ 0 → r.building_size_sqft = some n) ∧
    (∀ n, r1.whitespace_sqft = some n → n ≠ 0 → r.whitespace_sqft = some n) ∧
    (∀ s, r1.tier_rating = some s → s ≠ "" → r.tier_rating = some s) ∧
    (∀ y, r1.year_operational = some y → y ≠ 0 → r.year_operational = some y) ∧
    (r.url = r1.url ∧ r.city = r1.city ∧ r.postal_code = r1.postal_code ∧
     r.address = r1.address ∧ r.state = r1.state ∧ r.country = r1.country) ∧
    (∀ (texts : List String) (a b : FacilityData), specLoop a texts = .ok b →
        b.name = a.name ∧ b.operator = a.operator ∧
        b.latitude = a.latitude ∧ b.longitude = a.longitude) ∧
    (∀ (d2 : Doc) (a : FacilityData),
        (coordStage d2 a).name = a.name ∧ (coordStage d2 a).operator = a.operator ∧
        certStage d2 a = { a with certifications := (certStage d2 a).certifications } ∧
        descStage d2 a = { a with description := (descStage d2 a).description }) := by
  unfold laterStages at hok
  cases hsl : specLoop (coordStage d (htmlOperatorStage d (htmlNameStage d r1)))
      d.specTexts with
  | error e => simp only [hsl] at hok; exact absurd hok (by simp)
  | ok r4 =>
      simp only [hsl] at hok
      have hr : r = descStage d (certStage d r4) := (Except.ok.inj hok).symm
      obtain ⟨nA_url, nA_op, nA_addr, nA_city, nA_state, nA_country, nA_postal,
        nA_lat, nA_lng, nA_pow, nA_bld, nA_ws, nA_tier, nA_year, nA_cert, nA_desc⟩ :=
        htmlNameStage_fields d r1
      obtain ⟨oB_url, oB_name, oB_addr, oB_city, oB_state, oB_country, oB_postal,
        oB_lat, oB_lng, oB_pow, oB_bld, oB_ws, oB_tier, oB_year, oB_cert, oB_desc⟩ :=
        htmlOperatorStage_fields d (htmlNameStage d r1)
      obtain ⟨cC_url, cC_name, cC_op, cC_addr, cC_city, cC_state, cC_country, cC_postal,
        cC_pow, cC_bld, cC_ws, cC_tier, cC_year, cC_cert, cC_desc⟩ :=
        coordStage_fields d (htmlOperatorStage d (htmlNameStage d r1))
      obtain ⟨⟨u_url, u_name, u_op, u_addr, u_city, u_state, u_country, u_postal,
        u_lat, u_lng, u_cert, u_desc⟩, p_pow, p_bld, p_ws, p_tier, p_year⟩ :=
        specLoop_mono d.specTexts _ r4 hsl
      obtain ⟨cd_url, cd_name, cd_op, cd_addr, cd_city, cd_state, cd_country, cd_postal,
        cd_lat, cd_lng, cd_pow, cd_bld, cd_ws, cd_tier, cd_year⟩ :=
        certDesc_fields d r4
      refine ⟨?_, ?_, ?_, ?_, ?_, ?_, ?_, ?_, ?_, ?_, ?_, ?_⟩
      · -- name
        intro s hs hsne
        have hskip : htmlNameStage d r1 = r1 :=
          htmlNameStage_skip d r1 (by rw [hs]; simp [optStrFalsy, hsne])
        rw [hr, cd_name, u_name, cC_name, oB_name, hskip, hs]
      · -- operator
        intro s hs hsne
        have hskip : htmlOperatorStage d (htmlNameStage d r1) = htmlNameStage d r1 :=
          htmlOperatorStage_skip d _ (by rw [nA_op, hs]; simp [optStrFalsy, hsne])
        rw [hr, cd_op, u_op, cC_op, hskip, nA_op, hs]
      · -- latitude
        intro q hq hqne
        have hskip : coordStage d (htmlOperatorStage d (htmlNameStage d r1))
            = htmlOperatorStage d (htmlNameStage d r1) :=
          coordStage_skip d _ (by rw [oB_lat, nA_lat, hq]; simp [optRatFalsy, hqne])
        rw [hr, cd_lat, u_lat, hskip, oB_lat, nA_lat, hq]
      · -- longitude (latitude also truthy-set)
        intro la lo hla hlane hlo
        have hskip : coordStage d (htmlOperatorStage d (htmlNameStage d r1))
            = htmlOperatorStage d (htmlNameStage d r1) :=
          coordStage_skip d _ (by rw [oB_lat, nA_lat, hla]; simp [optRatFalsy, hlane])
        rw [hr, cd_lng, u_lng, hskip, oB_lng, nA_lng, hlo]
      · -- power
        intro q hq hqne
        have hC : (coordStage d (htmlOperatorStage d (htmlNameStage d r1))).power_capacity_mw
            = some q := by rw [cC_pow, oB_pow, nA_pow, hq]
        have h4 := p_pow (by rw [hC]; simp [optRatFalsy, hqne])
        rw [hr, cd_pow, h4, hC]
      · -- building
        intro n hn hnne
        have hC : (coordStage d (htmlOperatorStage d (htmlNameStage d r1))).building_size_sqft
            = some n := by rw [cC_bld, oB_bld, nA_bld, hn]
        have h4 := p_bld (by rw [hC]; simp [optIntFalsy, hnne])
        rw [hr, cd_bld, h4, hC]
      · -- whitespace
        intro n hn hnne
        have hC : (coordStage d (htmlOperatorStage d (htmlNameStage d r1))).whitespace_sqft
            = some n := by rw [cC_ws, oB_ws, nA_ws, hn]
        have h4 := p_ws (by rw [hC]; simp [optIntFalsy, hnne])
        rw [hr, cd_ws, h4, hC]
      · -- tier rating
        intro s hs hsne
        have hC : (coordStage d (htmlOperatorStage d (htmlNameStage d r1))).tier_rating
            = some s := by rw [cC_tier, oB_tier, nA_tier, hs]
        have h4 := p_tier (by rw [hC]; simp [optStrFalsy, hsne])
        rw [hr, cd_tier, h4, hC]
      · -- year
        intro y hy hyne
        have hC : (coordStage d (htmlOperatorStage d (htmlNameStage d r1))).year_operational
            = some y := by rw [cC_year, oB_year, nA_year, hy]
        have h4 := p_year (by rw [hC]; simp [optIntFalsy, hyne])
        rw [hr, cd_year, h4, hC]
      · -- pass-through fields
        exact ⟨by rw [hr, cd_url, u_url, cC_url, oB_url, nA_url],
          by rw [hr, cd_city, u_city, cC_city, oB_city, nA_city],
          by rw [hr, cd_postal, u_postal, cC_postal, oB_postal, nA_postal],
          by rw [hr, cd_addr, u_addr, cC_addr, oB_addr, nA_addr],
          by rw [hr, cd_state, u_state, cC_state, oB_state, nA_state],
          by rw [hr, cd_country, u_country, cC_country, oB_country, nA_country]⟩
      · -- tier 4 never touches name/operator/coordinates
        intro texts a b hab
        obtain ⟨⟨_, w_name, w_op, _, _, _, _, _, w_lat, w_lng, _, _⟩, _, _, _, _, _⟩ :=
          specLoop_mono texts a b hab
        exact ⟨w_name, w_op, w_lat, w_lng⟩
      · -- tier 3 never touches name/operator; cert/desc write only their own
        intro d2 a
        obtain ⟨_, k_name, k_op, _⟩ := coordStage_fields d2 a
        exact ⟨k_name, k_op, certStage_fields d2 a, descStage_fields d2 a⟩

/-- Claim C1 (counterexample): on `c1Doc`, tier 1 sets `power_capacity_mw` to
`0.0` and `longitude` to `-96.0` (latitude unset); the returned record has
`power_capacity_mw = 10.0` (the "10 MW" page text overwrote the falsy `0.0`)
and `longitude = -97.0` (the `geo.position` fallback, guarded only on
latitude, overwrote it) — so as stated, "once a field has been set by an
earlier tier, no later tier changes its value" is false. -/
theorem c1_counterexample :
    jsonStage c1Doc "u" = .ok c1Stage1 ∧
    c1Stage1.power_capacity_mw = some 0 ∧
    c1Stage1.longitude = some (-96 : Rat) ∧
    c1Stage1.latitude = none ∧
    scrape_data_center_page c1Doc "u" = .ok c1Final ∧
    c1Final.power_capacity_mw = some 10 ∧
    c1Final.longitude = some (-97 : Rat) :=
  ⟨rfl, by decide, by decide, by decide, rfl, by decide, by decide⟩

/-- Witness for `c1_truthy_fields_never_overridden`: the claim's own example
— tier 1 set power to `5.0`, the page text contains "10 MW", and the returned
power is still `5.0`. -/
theorem c1_truthy_fields_never_overridden_witness :
    laterStages c1wDoc c1wRec = .ok c1wRes ∧ c1wRes.power_capacity_mw = some 5 := by
  have hok : laterStages c1wDoc c1wRec = .ok c1wRes := rfl
  refine ⟨hok, ?_⟩
  have h := c1_truthy_fields_never_overridden c1wDoc c1wRec c1wRes hok
  exact h.2.2.2.2.1 5 (by decide) (by decide)

/-! ## C10: the two tier-rating formats -/

/-- An anchored tier match yields a non-empty group of class characters. -/
theorem matchTierAt_chars {l g : List Char} (h : matchTierAt l = some g) :
    g ≠ [] ∧ ∀ c ∈ g, isTierChar c = true := by
  unfold matchTierAt at h
  by_cases hp : chPre "tier".data l = true
  · rw [if_pos hp] at h
    by_cases he : ((((l.drop 4).dropWhile isWs).takeWhile isTierChar).isEmpty) = true
    · simp [he] at h
    · simp only [he] at h
      rw [if_neg (fun hf => Bool.false_ne_true hf)] at h
      have hgeq : List.takeWhile isTierChar (List.dropWhile isWs (List.drop 4 l)) = g :=
        Option.some.inj h
      refine ⟨?_, ?_⟩
      · intro hg
        rw [hgeq, hg] at he
        exact he rfl
      · intro c hc
        rw [← hgeq] at hc
        exact List.mem_takeWhile_imp hc
  · rw [if_neg hp] at h
    exact absurd h (by simp)

/-- The tier-rating scanner only returns non-empty groups of class
characters. -/
theorem findTierGroup_chars :
    ∀ (l g : List Char), findTierGroup l = some g →
      g ≠ [] ∧ ∀ c ∈ g, isTierChar c = true := by
  intro l
  induction l with
  | nil => intro g h; exact absurd h (by simp [findTierGroup])
  | cons c t ih =>
      intro g h
      rw [findTierGroup] at h
      cases hm : matchTierAt (c :: t) with
      | some g2 =>
          rw [hm] at h
          exact (Option.some.inj h) ▸ matchTierAt_chars hm
      | none =>
          rw [hm] at h
          exact ih g h

/-- Upper-casing a tier-class character never yields a space. -/
theorem upperChar_tierChar_ne_space {c : Char} (h : isTierChar c = true) :
    upperChar c ≠ ' ' := by
  unfold isTierChar at h
  simp only [Bool.or_eq_true, beq_iff_eq, Bool.and_eq_true, decide_eq_true_eq] at h
  rcases h with (((h | h) | h) | h) | ⟨h1, h2⟩
  · subst h; decide
  · subst h; decide
  · subst h; decide
  · subst h; decide
  · unfold upperChar
    by_cases hl : ('a' ≤ c && c ≤ 'z') = true
    · exfalso
      simp only [Bool.and_eq_true, decide_eq_true_eq] at hl
      exact absurd (le_trans hl.1 h2) (by decide)
    · rw [if_neg hl]
      intro hc
      rw [hc] at h1
      exact absurd h1 (by decide)

/-- The uppercased matched group is never `"TIER "`-prefixed. -/
theorem tier_group_not_TIER_prefixed {g : List Char} (_hne : g ≠ [])
    (hch : ∀ c ∈ g, isTierChar c = true) :
    ¬ ("TIER ".data <+: (upperStr (String.mk g)).data) := by
  intro hpre
  have hsp : ' ' ∈ (upperStr (String.mk g)).data := hpre.subset (by decide)
  have hdata : (upperStr (String.mk g)).data = g.map upperChar := rfl
  rw [hdata] at hsp
  obtain ⟨c, hc, hcu⟩ := List.mem_map.mp hsp
  exact upperChar_tierChar_ne_space (hch c hc) hcu

/-- One tier-4 element step: the tier rating is either untouched or the
uppercased group of a scanner match. -/
theorem applySpecText_tier {r r' : FacilityData} {t : String}
    (h : applySpecText r t = .ok r') :
    r'.tier_rating = r.tier_rating ∨
      ∃ g, findTierGroup (lowerStr t).data = some g ∧
        r'.tier_rating = some (upperStr (String.mk g)) := by
  set tl := (lowerStr t).data with htl
  have hstep : applySpecText r t =
      (match applyBuildingRe tl (applyPowerRe tl r) with
       | .error e => .error e
       | .ok r2 =>
          match applyWsRe tl r2 with
          | .error e => .error e
          | .ok r3 => .ok (applyYearRe tl (applyTierRe tl r3))) := rfl
  rw [hstep] at h
  have h1 : (applyPowerRe tl r).tier_rating = r.tier_rating := by
    rcases applyPowerRe_shape tl r with hs | ⟨_, q, hs⟩ <;> rw [hs]
  cases hb : applyBuildingRe tl (applyPowerRe tl r) with
  | error e => simp only [hb] at h; exact absurd h (by simp)
  | ok r2 =>
      simp only [hb] at h
      have h2 : r2.tier_rating = r.tier_rating := by
        rcases applyBuildingRe_ok hb with hs | ⟨_, n, hs⟩ <;> rw [hs] <;> exact h1
      cases hw : applyWsRe tl r2 with
      | error e => simp only [hw] at h; exact absurd h (by simp)
      | ok r3 =>
          simp only [hw] at h
          have h3 : r3.tier_rating = r.tier_rating := by
            rcases applyWsRe_ok hw with hs | ⟨_, n, hs⟩ <;> rw [hs] <;> exact h2
          have hr' : r' = applyYearRe tl (applyTierRe tl r3) := (Except.ok.inj h).symm
          have h5 : r'.tier_rating = (applyTierRe tl r3).tier_rating := by
            rw [hr']
            rcases applyYearRe_shape tl (applyTierRe tl r3) with hs | ⟨_, cy, hs⟩ <;>
              rw [hs]
          rcases applyTierRe_shape tl r3 with hs | ⟨_, g, hg, hs⟩
          · exact Or.inl (by rw [h5, hs, h3])
          · exact Or.inr ⟨g, hg, by rw [h5, hs]⟩

/-- Through the whole tier-4 loop, a tier rating that was never
`"TIER "`-prefixed stays that way (in particular one starting empty). -/
theorem specLoop_tier_inv :
    ∀ (texts : List String) (r r' : FacilityData),
      specLoop r texts = .ok r' →
      (∀ v, r.tier_rating = some v → ¬ ("TIER ".data <+: v.data)) →
      ∀ v, r'.tier_rating = some v → ¬ ("TIER ".data <+: v.data) := by
  intro texts
  induction texts with
  | nil =>
      intro r r' h hP
      rw [show r' = r from (Except.ok.inj h).symm]
      exact hP
  | cons t rest ih =>
      intro r r' h hP
      simp only [specLoop] at h
      cases ha : applySpecText r t with
      | error e => simp only [ha] at h; exact absurd h (by simp)
      | ok r2 =>
          simp only [ha] at h
          refine ih r2 r' h ?_
          intro v hv
          rcases applySpecText_tier ha with heq | ⟨g, hg, hval⟩
          · exact hP v (by rw [← heq, hv])
          · rw [hv] at hval
            obtain ⟨hne, hch⟩ := findTierGroup_chars _ g hg
            rw [Option.some.inj hval]
            exact tier_group_not_TIER_prefixed hne hch

/-- A guarded string step with a tier-preserving update preserves the tier
rating. -/
theorem strFieldStep_tier (kvs : List (String × JVal)) (k : String)
    (upd : FacilityData → String → FacilityData) (r : FacilityData)
    (hupd : ∀ a s, (upd a s).tier_rating = a.tier_rating) :
    (strFieldStep kvs k upd r).tier_rating = r.tier_rating := by
  unfold strFieldStep
  split
  · split
    · exact hupd r (pyStr _)
    · rfl
  · rfl

/-- A guarded float step with a tier-preserving update preserves the tier
rating when it returns. -/
theorem floatFieldStep_tier {kvs : List (String × JVal)} {k : String}
    {upd : FacilityData → Rat → FacilityData} {r r' : FacilityData}
    (h : floatFieldStep kvs k upd r = .ok r')
    (hupd : ∀ a q, (upd a q).tier_rating = a.tier_rating) :
    r'.tier_rating = r.tier_rating := by
  unfold floatFieldStep at h
  split at h
  · split at h
    · split at h
      · rw [← Except.ok.inj h]; exact hupd r _
      · exact absurd h (by simp)
    · rw [← Except.ok.inj h]
  · rw [← Except.ok.inj h]

/-- The meta_power block preserves the tier rating. -/
theorem powerStep_tier (kvs : List (String × JVal)) (r : FacilityData) :
    (powerStep kvs r).tier_rating = r.tier_rating := by
  unfold powerStep
  split
  · split
    · split
      · split <;> rfl
      · rfl
    · rfl
  · rfl

/-- The meta_building block preserves the tier rating. -/
theorem buildingMetaStep_tier (kvs : List (String × JVal)) (r : FacilityData) :
    (buildingMetaStep kvs r).tier_rating = r.tier_rating := by
  unfold buildingMetaStep
  repeat' split
  all_goals rfl

/-- The companies block preserves the tier rating. -/
theorem companiesStep_tier (kvs : List (String × JVal)) (r : FacilityData) :
    (companiesStep kvs r).tier_rating = r.tier_rating := by
  unfold companiesStep
  split
  · split
    · split <;> rfl
    · rfl
  · rfl

/-- The meta_standards block either preserves the tier rating or stores a
`"TIER "`-prefixed string. -/
theorem standardsStep_tier (kvs : List (String × JVal)) (r : FacilityData) :
    (standardsStep kvs r).tier_rating = r.tier_rating ∨
      ∃ tv, (standardsStep kvs r).tier_rating
        = some (String.mk ("TIER ".data ++ (pyStr tv).data)) := by
  unfold standardsStep
  split
  · split
    · split
      · split
        · exact Or.inr ⟨_, rfl⟩
        · exact Or.inl rfl
      · exact Or.inl rfl
    · exact Or.inl rfl
  · exact Or.inl rfl

/-- When tier-1 extraction fills a previously empty tier rating, the stored
value is `"TIER "`-prefixed. -/
theorem jsonExtract_tier {kvs : List (String × JVal)} {r r' : FacilityData}
    (hnone : r.tier_rating = none)
    (h : jsonExtract kvs r = .ok r') :
    ∀ v, r'.tier_rating = some v → "TIER ".data <+: v.data := by
  intro v hv
  have hstep : jsonExtract kvs r =
      (match floatFieldStep kvs "latitude" (fun a q => { a with latitude := some q })
          (strFieldStep kvs "name" (fun a s => { a with name := some s }) r) with
       | .error e => .error e
       | .ok r2 =>
          match floatFieldStep kvs "longitude" (fun a q => { a with longitude := some q })
              r2 with
          | .error e => .error e
          | .ok r3 =>
              .ok (companiesStep kvs (standardsStep kvs (buildingMetaStep kvs
                (powerStep kvs (strFieldStep kvs "address"
                  (fun a s => { a with address := some s })
                  (strFieldStep kvs "postal" (fun a s => { a with postal_code := some s })
                    (strFieldStep kvs "city" (fun a s => { a with city := some s })
                      r3)))))))) := rfl
  rw [hstep] at h
  cases hlat : floatFieldStep kvs "latitude" (fun a q => { a with latitude := some q })
      (strFieldStep kvs "name" (fun a s => { a with name := some s }) r) with
  | error e => simp only [hlat] at h; exact absurd h (by simp)
  | ok r2 =>
      simp only [hlat] at h
      cases hlng : floatFieldStep kvs "longitude"
          (fun a q => { a with longitude := some q }) r2 with
      | error e => simp only [hlng] at h; exact absurd h (by simp)
      | ok r3 =>
          simp only [hlng] at h
          have hr' := (Except.ok.inj h).symm
          have h2 : r2.tier_rating = none := by
            rw [floatFieldStep_tier hlat (fun a q => rfl),
              strFieldStep_tier kvs "name" (fun a s => { a with name := some s }) r
                (fun a s => rfl)]
            exact hnone
          have h3 : r3.tier_rating = none := by
            rw [floatFieldStep_tier hlng (fun a q => rfl)]
            exact h2
          set rmid := strFieldStep kvs "address" (fun a s => { a with address := some s })
            (strFieldStep kvs "postal" (fun a s => { a with postal_code := some s })
              (strFieldStep kvs "city" (fun a s => { a with city := some s }) r3))
            with hrmid
          have h6 : rmid.tier_rating = none := by
            rw [hrmid,
              strFieldStep_tier kvs "address" (fun a s => { a with address := some s }) _
                (fun a s => rfl),
              strFieldStep_tier kvs "postal" (fun a s => { a with postal_code := some s }) _
                (fun a s => rfl),
              strFieldStep_tier kvs "city" (fun a s => { a with city := some s }) _
                (fun a s => rfl)]
            exact h3
          have h8 : (buildingMetaStep kvs (powerStep kvs rmid)).tier_rating = none := by
            rw [buildingMetaStep_tier, powerStep_tier]
            exact h6
          have hv2 : (standardsStep kvs (buildingMetaStep kvs
              (powerStep kvs rmid))).tier_rating = some v := by
            rw [← companiesStep_tier kvs, ← hr', hv]
          rcases standardsStep_tier kvs (buildingMetaStep kvs (powerStep kvs rmid))
            with heq | ⟨tv, hval⟩
          · rw [heq, h8] at hv2
            exact absurd hv2 (by simp)
          · rw [hval] at hv2
            rw [← Option.some.inj hv2]
            exact List.prefix_append "TIER ".data (pyStr tv).data

/-- Claim C10: when the tier-4 regex scan fills a previously empty
`tier_rating`, the stored value is the matched numeral uppercased and is
never `"TIER "`-prefixed, whereas tier 1 always stores a `"TIER "`-prefixed
string — the same logical rating is formatted differently depending on the
producing tier; concretely, the page text `tier iii` yields `"III"`. -/
theorem c10_tier_rating_formats :
    (∀ (texts : List String) (r r' : FacilityData) (v : String),
        r.tier_rating = none → specLoop r texts = .ok r' →
        r'.tier_rating = some v → ¬ ("TIER ".data <+: v.data)) ∧
    (∀ (kvs : List (String × JVal)) (r r' : FacilityData) (v : String),
        r.tier_rating = none → jsonExtract kvs r = .ok r' →
        r'.tier_rating = some v → "TIER ".data <+: v.data) ∧
    (specLoop (initData "u") c10Texts).map (fun r => r.tier_rating)
      = .ok (some "III") := by
  refine ⟨?_, ?_, rfl⟩
  · intro texts r r' v hnone hloop hval
    exact specLoop_tier_inv texts r r' hloop
      (fun w hw => absurd (hnone ▸ hw) (by simp)) v hval
  · intro kvs r r' v hnone hex hval
    exact jsonExtract_tier hnone hex v hval

/-- Witness for `c10_tier_rating_formats`: the tier-4 loop on `c10Texts`
fills the empty tier rating of a fresh record with `"III"`, which is not
`"TIER "`-prefixed. -/
theorem c10_tier_rating_formats_witness :
    (initData "u").tier_rating = none ∧
    specLoop (initData "u") c10Texts = .ok c10Res ∧
    c10Res.tier_rating = some "III" ∧
    ¬ ("TIER ".data <+: "III".data) := by
  have h1 : (initData "u").tier_rating = none := rfl
  have h2 : specLoop (initData "u") c10Texts = .ok c10Res := rfl
  have h3 : c10Res.tier_rating = some "III" := by decide
  exact ⟨h1, h2, h3,
    c10_tier_rating_formats.1 c10Texts (initData "u") c10Res "III" h1 h2 h3⟩
